import Mathlib

/-!
Verification development for the IntelliLog-AI Route Optimization &
Dynamic Dispatch Engine.

This file gives a shallow embedding, in Lean 4, of the parts of the
repository relevant to the frozen claims:

* `src/optimization/vrp_solver.py` (haversine fill-in, the greedy
  heuristic `greedy_vrp`, the OR-Tools model construction and result
  extraction in `ortools_vrp`, and the top-level planner `plan_routes`);
* `src/backend/app/services/clustering_service.py` (`cluster_orders`);
* `src/backend/app/services/routing_service.py` (`get_osrm_table`);
* `src/backend/app/services/optimization_service.py`
  (`_build_points`, `_solve_single`, `calculate_routes`);
* `src/backend/app/services/reroute_service.py` (`_reroute_warehouse`
  and its database updates).

Modelling conventions:

* Python floats are modelled as rationals (`ℚ`); Python ints as `ℤ` or
  `Nat`; fallible functions return `Except String _` with the source's
  error messages.
* External collaborators that are not code of this repository are
  abstracted as oracle fields of an `Ext` record: the trigonometric
  haversine value (`hav`, `hq`), the scikit-learn DBSCAN labelling
  (`dbscanLabels`), the OR-Tools `SolveWithParameters` call (`solve`,
  which may raise, find no solution, or return a solution given as the
  per-vehicle node walks plus the dropped nodes), the OSRM HTTP table
  call (`osrmTable`) and the ML delay predictor (`predictEta`).
  Availability flags of optional libraries are booleans.
* `pandas.sort_values` uses an unstable quicksort; the embedding fixes
  one concrete order (a stable insertion sort on the priority key),
  which realises one legitimate run of the source.
* Dictionary rows are structures; a missing optional key is `none`.
-/

set_option maxRecDepth 4000

namespace IntelliLog

/-- A (latitude, longitude) pair, as in the source's coordinate tuples. -/
abbrev Point : Type := ℚ × ℚ

/-- A distance or duration matrix (list of rows), as built by
`build_distance_matrix` / OSRM. -/
abbrev Mat : Type := List (List ℚ)

/-- Matrix entry lookup `m[i][j]` (0 outside the matrix). -/
def mget (m : Mat) (i j : Nat) : ℚ := (m.getD i []).getD j 0

/-- One order row of the dataframe handed to `plan_routes`:
`order_id`, `lat`, `lon`, optional `distance_km`, optional `weight`,
optional `traffic` level, optional `service_time_min`, and the order's
time window already expressed in minutes since the start of the day
(the source converts `datetime` pairs with `_minutes_since_start`;
a `none` window models absent/ill-typed datetimes). -/
structure OrderRow where
  order_id : Nat
  lat : ℚ
  lon : ℚ
  distance_km : Option ℚ
  weight : Option ℚ
  traffic : Option String
  service_time_min : Option ℤ
  time_window : Option (ℤ × ℤ)
deriving DecidableEq

/-- One driver row of `drivers_data` as built by
`_build_drivers_payload`: id, current GPS fix, vehicle capacity and the
(always absent in the payload builder, but handled) shift window in
minutes since start of day. -/
structure DriverRow where
  driver_id : Nat
  current_lat : Option ℚ
  current_lng : Option ℚ
  vehicle_capacity : Option ℤ
  shift : Option (ℤ × ℤ)
deriving DecidableEq

/-- One route dict of a planner result. The greedy heuristic produces
dicts with keys `id`, `route`, `load` (no `duration_min`, modelled as
`none`); the OR-Tools mapping also sets `duration_min`. -/
structure ROut where
  id : Nat
  route : List Nat
  load : ℚ
  duration_min : Option ℚ
deriving DecidableEq

/-- The dict returned by `plan_routes` (the `debug` payload is not
modelled; the greedy paths return no `unassigned` key, modelled as
`none`). -/
structure PlanResult where
  routes : List ROut
  method : String
  n_orders : Nat
  unassigned : Option (List Nat)
deriving DecidableEq

/-- The model handed to the OR-Tools solver by `ortools_vrp`: distance
matrix (km), vehicle count, start/end nodes, the capacity dimension's
`capacities`/`demands`, time windows (minutes), per-node service times
(minutes), the resolved time matrix (integer seconds), time limit and
the drop-disjunction parameters. -/
structure VrpInput where
  dm : Mat
  num_vehicles : Nat
  starts : List Nat
  ends : List Nat
  capacities : List ℤ
  demands : List ℤ
  time_windows : List (ℤ × ℤ)
  service_times_min : List ℤ
  tm : Mat
  time_limit_sec : ℤ
  allow_dropping : Bool
  drop_penalty : ℤ
deriving DecidableEq

/-- An OR-Tools solution, abstracted: the walk of nodes from each
vehicle's start to its end (what the source reads off `NextVar`),
and the nodes whose disjunction was exercised (`NextVar(i) == i`). -/
structure VrpSolution where
  vroutes : List (List Nat)
  dropped : List Nat
deriving DecidableEq

/-- The dict returned by `ortools_vrp`. -/
structure RawResult where
  routes : List (List Nat)
  route_dist_km : List ℚ
  route_dur_min : List ℚ
  unassigned : List Nat
deriving DecidableEq

/-- External collaborators of the engine, abstracted as oracles;
see the module docstring. -/
structure Ext where
  hav : Point → Point → ℚ
  hq : Point → Point → ℚ
  ortoolsAvailable : Bool
  solve : VrpInput → Except String (Option VrpSolution)
  sklearnAvailable : Bool
  dbscanLabels : ℚ → Nat → List Point → List ℤ
  osrmTable : List Point → Except String (Mat × Mat)
  predictEta : List OrderRow → Except String (List ℚ)

/-- The configuration surface relevant to the claims
(`src/backend/app/core/config.py`). -/
structure Settings where
  OSRM_MAX_POINTS : Nat
  OSRM_FALLBACK_HAVERSINE : Bool
  REROUTE_AVG_SPEED_KMPH : ℚ
  REROUTE_ORTOOLS_TIME_LIMIT : ℤ
deriving DecidableEq

/-- Arithmetic mean of a list of rationals (`np.mean`, `sum/len`). -/
def meanQ (l : List ℚ) : ℚ := l.sum / (l.length : ℚ)

/-- Python's `round` (banker's rounding: round half to even). -/
def pyRound (q : ℚ) : ℤ :=
  let f := ⌊q⌋
  let r := q - (f : ℚ)
  if r < 1/2 then f
  else if (1/2 : ℚ) < r then f + 1
  else if f % 2 = 0 then f else f + 1

/-- `int()` / numpy `astype(int)` on a float: truncation toward zero. -/
def pyToInt (q : ℚ) : ℤ := if 0 ≤ q then ⌊q⌋ else -⌊-q⌋

/-- The demand units `plan_routes` derives from an order's weight:
`int(max(1, round(float(row.get("weight", 1.0)))))`. -/
def demandOf (w : Option ℚ) : ℤ := max 1 (pyRound (w.getD 1))

/-- `build_distance_matrix`: symmetric with zero diagonal; the entry
for `i < j` is the haversine distance of points `i` and `j`, mirrored
to `(j, i)`. -/
def build_distance_matrix (hav : Point → Point → ℚ) (points : List Point) : Mat :=
  (List.range points.length).map (fun i =>
    (List.range points.length).map (fun j =>
      if i = j then 0
      else if i < j then hav (points.getD i (0, 0)) (points.getD j (0, 0))
      else hav (points.getD j (0, 0)) (points.getD i (0, 0))))

/-- `build_time_matrix`: seconds from km at `max(speed, 5)` km/h,
truncated to integers. -/
def build_time_matrix (dm : Mat) (avg_speed_kmph : ℚ) : Mat :=
  dm.map (fun row => row.map (fun d => ((pyToInt (d / max avg_speed_kmph 5 * 3600) : ℤ) : ℚ)))

/-- The traffic weight map of `greedy_vrp`
(`{"low": 0.8, "medium": 1.0, "high": 1.3}` with `fillna(1.0)` for
missing or unmapped labels). -/
def trafficWeight : Option String → ℚ
  | some s => if s = "low" then 4/5 else if s = "medium" then 1
      else if s = "high" then 13/10 else 1
  | none => 1

/-- A dataframe row of `greedy_vrp` after the `pred_delay` and
`priority` columns have been added. -/
structure GRow where
  row : OrderRow
  pred_delay : ℚ
  priority : ℚ
deriving DecidableEq

/-- Insert one row into a list sorted by descending `priority`,
keeping earlier equal-priority rows first. -/
def insertRowDesc (x : GRow) : List GRow → List GRow
  | [] => [x]
  | y :: ys => if x.priority ≤ y.priority then y :: insertRowDesc x ys else x :: y :: ys

/-- Sort rows by descending `priority`
(`df.sort_values("priority", ascending=False)`; the source's quicksort
order among equal keys is unspecified, this fixes the stable one). -/
def sortRowsDesc (l : List GRow) : List GRow := l.foldr insertRowDesc []

/-- CPython's `min(xs, key=f)`: first element achieving the minimal
key, returned with its index; `none` on an empty sequence. -/
def pyArgmin {α : Type} (key : α → ℚ) : List α → Option (Nat × α)
  | [] => none
  | x :: xs => some (pyArgminGo key 0 x 1 xs)
where
  pyArgminGo (key : α → ℚ) (bi : Nat) (b : α) (i : Nat) : List α → Nat × α
    | [] => (bi, b)
    | y :: ys => if key y < key b then pyArgminGo key i y (i + 1) ys
        else pyArgminGo key bi b (i + 1) ys

/-- One iteration of the greedy assignment loop: pick the least-loaded
driver (`min(drivers_state, key=lambda d: d["load"])` raises on an
empty pool), append the order and add `distance_km + pred_delay` to its
load. -/
def greedyStep (ds : List ROut) (g : GRow) : Except String (List ROut) :=
  match pyArgmin (fun d => d.load) ds with
  | none => Except.error "min() arg is an empty sequence"
  | some (i, d) => Except.ok (ds.set i
      { d with
        route := d.route ++ [g.row.order_id]
        load := d.load + (g.row.distance_km.getD 0 + g.pred_delay) })

/-- `greedy_vrp`: priority = `pred_delay + distance_km`, multiplied by
the traffic weight when the traffic column is present; stops processed
in descending priority and assigned to the least-loaded driver. -/
def greedy_vrp (orders : List OrderRow) (preds : Option (List ℚ)) (drivers : Nat)
    (traffic_factor : Bool) : Except String (List ROut) :=
  let ps := preds.getD (List.replicate orders.length 0)
  if ps.length ≠ orders.length then
    Except.error "Length of values does not match length of index"
  else
    let rows := (orders.zip ps).map (fun p =>
      ({ row := p.1, pred_delay := p.2, priority := p.2 + p.1.distance_km.getD 0 } : GRow))
    let rows := if traffic_factor && orders.any (fun o => o.traffic.isSome) then
        rows.map (fun g => { g with priority := g.priority * trafficWeight g.row.traffic })
      else rows
    (sortRowsDesc rows).foldlM greedyStep
      ((List.range drivers).map (fun i => ({ id := i, route := [], load := 0, duration_min := none } : ROut)))

/-- Accumulated km along a node walk (`distance_matrix_km[node][next]`
summed over consecutive pairs). -/
def routeDistKm (dm : Mat) (nodes : List Nat) : ℚ :=
  ((nodes.zip nodes.tail).foldl (fun acc p => acc + mget dm p.1 p.2) 0)

/-- Accumulated minutes along a node walk
(`time_matrix_sec[node][next] + service_times_sec[node]` summed, then
divided by 60). -/
def routeDurMin (tm : Mat) (service_times_min : List ℤ) (nodes : List Nat) : ℚ :=
  ((nodes.zip nodes.tail).foldl
    (fun acc p => acc + mget tm p.1 p.2 + ((service_times_min.getD p.1 0 * 60 : ℤ) : ℚ)) 0) / 60

/-- `ortools_vrp`: availability gate, empty-matrix early return, the
source's length validations (raised `ValueError`s), the black-box
solve, and the result extraction (node walks, per-route distance and
duration, and the unassigned non-depot nodes). -/
def ortools_vrp (available : Bool) (solve : VrpInput → Except String (Option VrpSolution))
    (inp : VrpInput) : Except String RawResult :=
  if ¬ available then
    Except.error "OR-Tools not available. Install ortools to use this solver."
  else if inp.dm.length = 0 then Except.ok ⟨[], [], [], []⟩
  else
    let n := inp.dm.length
    let service := if inp.service_times_min = [] then List.replicate n 0 else inp.service_times_min
    if service.length ≠ n then
      Except.error "Service times length must match number of nodes"
    else if inp.starts.length ≠ inp.num_vehicles ∨ inp.ends.length ≠ inp.num_vehicles then
      Except.error "Starts/ends must match num_vehicles"
    else if inp.capacities ≠ [] ∧ inp.demands ≠ [] ∧ inp.demands.length ≠ n then
      Except.error "Demands length must match number of nodes"
    else if inp.capacities ≠ [] ∧ inp.demands ≠ [] ∧ inp.capacities.length ≠ inp.num_vehicles then
      Except.error "Capacities length must match num_vehicles"
    else if inp.time_windows ≠ [] ∧ inp.time_windows.length ≠ n then
      Except.error "Time windows length must match number of nodes"
    else
      match solve inp with
      | Except.error e => Except.error e
      | Except.ok none => Except.ok ⟨[], [], [], []⟩
      | Except.ok (some sol) =>
          Except.ok
            ⟨sol.vroutes,
             sol.vroutes.map (fun nodes => routeDistKm inp.dm nodes),
             sol.vroutes.map (fun nodes => routeDurMin inp.tm service nodes),
             (List.range n).filter (fun node =>
               !(inp.starts.contains node) && !(inp.ends.contains node)
                 && sol.dropped.contains node)⟩

/-- The `distance_km` fill-in of `plan_routes`: when the column is
absent or any entry is null, recompute every row's distance from the
reference point (the depot when given, else the batch centroid). -/
def prepOrders (hav : Point → Point → ℚ) (depot : Option Point)
    (orders : List OrderRow) : List OrderRow :=
  if orders.any (fun o => o.distance_km.isNone) then
    let ref := match depot with
      | some d => d
      | none => (meanQ (orders.map (fun o => o.lat)), meanQ (orders.map (fun o => o.lon)))
    orders.map (fun o => { o with distance_km := some (hav ref (o.lat, o.lon)) })
  else orders

/-- The ML-prediction step of `plan_routes`: when enabled and a
predictor is wired, its exceptions are swallowed and replaced by zero
delays; otherwise no predictions. -/
def computePreds (ext : Ext) (use_ml : Bool) (has_predictor : Bool)
    (df : List OrderRow) : Option (List ℚ) :=
  if use_ml && has_predictor then
    match ext.predictEta df with
    | Except.ok l => some l
    | Except.error _ => some (List.replicate df.length 0)
  else none

/-- The depot-node construction of `plan_routes`' OR-Tools branch:
a single shared depot when `depot_coords` is given; per-driver GPS
depots (missing fixes replaced by the batch centroid) when a drivers
payload is given; else the batch centroid with the vehicle count
bumped to at least 1. Returns (depot points, vehicle count). -/
def planDepotInfo (df : List OrderRow) (drivers : Nat)
    (driversData : Option (List DriverRow)) (depot : Option Point) : List Point × Nat :=
  let payload := driversData.getD []
  let num0 := if payload ≠ [] then payload.length else drivers
  match depot with
  | some d => ([d], num0)
  | none =>
      if payload ≠ [] then
        (payload.map (fun dr =>
          match dr.current_lat, dr.current_lng with
          | some la, some ln => (la, ln)
          | _, _ => (meanQ (df.map (fun o => o.lat)), meanQ (df.map (fun o => o.lon)))), num0)
      else
        ([(meanQ (df.map (fun o => o.lat)), meanQ (df.map (fun o => o.lon)))], max num0 1)

/-- The time-window clamping of `plan_routes`:
`start = max(0, start); end = max(start + 1, end)`, with `(0, 24*60)`
for an absent window. -/
def clampTw : Option (ℤ × ℤ) → ℤ × ℤ
  | some p => (max 0 p.1, max (max 0 p.1 + 1) p.2)
  | none => (0, 1440)

/-- The OR-Tools model constructed by `plan_routes` lines 389-503:
nodes are depot point(s) followed by the orders; the distance matrix is
the given one or the haversine matrix; starts/ends, capacities
(`max(cap, 1)`, default 10), demands (`demandOf`), service times and
clamped time windows as in the source; the time matrix is the given one
truncated to integer seconds or derived from the distance matrix. -/
def buildVrpInput (hav : Point → Point → ℚ) (df : List OrderRow) (drivers : Nat)
    (driversData : Option (List DriverRow)) (depot : Option Point)
    (dmOpt tmOpt : Option Mat) (avg_speed_kmph : ℚ) (time_limit : ℤ)
    (service_time_min_default : ℤ) : VrpInput :=
  let payload := driversData.getD []
  let dpn := planDepotInfo df drivers driversData depot
  let depot_points := dpn.1
  let num_vehicles := dpn.2
  let points := depot_points ++ df.map (fun o => (o.lat, o.lon))
  let dm := dmOpt.getD (build_distance_matrix hav points)
  let depot_count := depot_points.length
  let starts := match depot with
    | some _ => List.replicate num_vehicles 0
    | none => if payload ≠ [] then List.range depot_count else List.replicate num_vehicles 0
  let ends := match depot with
    | some _ => List.replicate num_vehicles 0
    | none => if payload ≠ [] then List.range depot_count else List.replicate num_vehicles 0
  let capacities := if payload ≠ [] then
      payload.map (fun d => max (d.vehicle_capacity.getD 10) 1)
    else List.replicate num_vehicles 10
  let demands := List.replicate depot_count 0 ++ df.map (fun o => demandOf o.weight)
  let service := List.replicate depot_count 0
      ++ df.map (fun o => o.service_time_min.getD service_time_min_default)
  let tw := (List.range depot_count).map (fun i =>
      clampTw (match payload.get? i with | some d => d.shift | none => none))
    ++ df.map (fun o => clampTw o.time_window)
  let tm := (tmOpt.map (fun t =>
    t.map (fun row => row.map (fun x => ((pyToInt x : ℤ) : ℚ))))).getD
    (build_time_matrix dm avg_speed_kmph)
  ⟨dm, num_vehicles, starts, ends, capacities, demands, tw, service, tm,
    time_limit, true, 100000⟩

/-- The node list `plan_routes` builds for the OR-Tools model: depot
point(s) first, then the prepared orders' coordinates. -/
def planPoints (hav : Point → Point → ℚ) (orders : List OrderRow) (drivers : Nat)
    (driversData : Option (List DriverRow)) (depot : Option Point) : List Point :=
  (planDepotInfo (prepOrders hav depot orders) drivers driversData depot).1
    ++ (prepOrders hav depot orders).map (fun o => (o.lat, o.lon))

/-- The node-to-order mapping of `plan_routes`' result extraction:
depot nodes are skipped, order nodes are looked up by
`idx - depot_count` when in range. -/
def routeOrderRows (df : List OrderRow) (depot_count : Nat) (nodes : List Nat) : List OrderRow :=
  nodes.filterMap (fun idx => if idx < depot_count then none else df.get? (idx - depot_count))

/-- The body of `plan_routes`' OR-Tools `try` block: build the model,
run `ortools_vrp`, and map node routes and unassigned nodes back to
order ids. Any `Except.error` models an exception escaping the block. -/
def ortoolsPlan (ext : Ext) (df : List OrderRow) (drivers : Nat)
    (driversData : Option (List DriverRow)) (depot : Option Point)
    (dmOpt tmOpt : Option Mat) (avg_speed_kmph : ℚ) (time_limit : ℤ)
    (service_time_min_default : ℤ) : Except String PlanResult :=
  let inp := buildVrpInput ext.hav df drivers driversData depot dmOpt tmOpt
    avg_speed_kmph time_limit service_time_min_default
  let depot_count := (planDepotInfo df drivers driversData depot).1.length
  match ortools_vrp ext.ortoolsAvailable ext.solve inp with
  | Except.error e => Except.error e
  | Except.ok raw =>
      Except.ok
        ⟨raw.routes.enum.map (fun p =>
          ({ id := p.1
             route := (routeOrderRows df depot_count p.2).map (fun o => o.order_id)
             load := raw.route_dist_km.getD p.1 0
             duration_min := some (raw.route_dur_min.getD p.1 0) } : ROut)),
         "ortools", df.length,
         some (raw.unassigned.filterMap (fun node =>
           if depot_count ≤ node then (df.get? (node - depot_count)).map (fun o => o.order_id)
           else none))⟩

/-- `plan_routes`: empty-order early return; `distance_km` fill-in; ML
predictions; then the greedy path, or the OR-Tools path with fallback
to the greedy heuristic (tagged `greedy_fallback`) when the library is
unavailable or the constrained branch raises. -/
def plan_routes (ext : Ext) (orders : List OrderRow) (drivers : Nat) (method : String)
    (use_ml_predictions : Bool) (has_model_predictor : Bool) (ortools_time_limit : ℤ)
    (avg_speed_kmph : ℚ) (service_time_min_default : ℤ)
    (drivers_data : Option (List DriverRow)) (distance_matrix_km : Option Mat)
    (time_matrix_sec : Option Mat) (depot_coords : Option Point) :
    Except String PlanResult :=
  if orders = [] then Except.ok ⟨[], method, 0, none⟩
  else
    let df := prepOrders ext.hav depot_coords orders
    let preds := computePreds ext use_ml_predictions has_model_predictor df
    if method = "greedy" then
      (greedy_vrp df preds drivers true).map (fun rs => ⟨rs, "greedy", df.length, none⟩)
    else if method = "ortools" then
      if ¬ ext.ortoolsAvailable then
        (greedy_vrp df preds drivers true).map (fun rs => ⟨rs, "greedy_fallback", df.length, none⟩)
      else
        match ortoolsPlan ext df drivers drivers_data depot_coords distance_matrix_km
            time_matrix_sec avg_speed_kmph ortools_time_limit service_time_min_default with
        | Except.ok res => Except.ok res
        | Except.error _ =>
            (greedy_vrp df preds drivers true).map
              (fun rs => ⟨rs, "greedy_fallback", df.length, none⟩)
    else Except.error ("Unknown method: " ++ method)

/-! ### Clustering service (`clustering_service.py`) -/

/-- Insert one labelled order into the cluster association list,
preserving the first-seen key order
(`clusters.setdefault(label, []).append(order)`). -/
def insertLabeled (acc : List (ℤ × List OrderRow)) (o : OrderRow) (l : ℤ) :
    List (ℤ × List OrderRow) :=
  match acc with
  | [] => [(l, [o])]
  | c :: rest => if c.1 = l then (c.1, c.2 ++ [o]) :: rest else c :: insertLabeled rest o l

/-- Group orders by their DBSCAN label, keys in first-seen order
(Python dict insertion order). -/
def groupByLabel (ol : List (OrderRow × ℤ)) : List (ℤ × List OrderRow) :=
  ol.foldl (fun acc p => insertLabeled acc p.1 p.2) []

/-- `clusters[best_cid].append(o)`. -/
def appendToCluster (cs : List (ℤ × List OrderRow)) (cid : ℤ) (o : OrderRow) :
    List (ℤ × List OrderRow) :=
  cs.map (fun c => if c.1 = cid then (c.1, c.2 ++ [o]) else c)

/-- `cluster_orders`: trivial single cluster when scikit-learn is
missing or the batch is smaller than `min_samples`; otherwise group by
the DBSCAN labels and, when noise (label -1) coexists with at least one
dense cluster, merge each noise order into the cluster with the nearest
centroid (first minimum in dict order; centroids fixed before the
merge loop). -/
def cluster_orders (ext : Ext) (orders : List OrderRow) (eps_km : ℚ) (min_samples : Nat) :
    List (ℤ × List OrderRow) :=
  if ¬ ext.sklearnAvailable ∨ orders.length < min_samples then [(0, orders)]
  else
    let labels := ext.dbscanLabels eps_km min_samples (orders.map (fun o => (o.lat, o.lon)))
    let clusters := groupByLabel (orders.zip labels)
    let n_clusters := (labels.dedup.filter (fun l => l ≠ -1)).length
    if clusters.any (fun c => c.1 = -1) && decide (0 < n_clusters) then
      let noise := ((clusters.find? (fun c => c.1 = -1)).map (fun c => c.2)).getD []
      let rest := clusters.filter (fun c => ¬ (c.1 = -1))
      let cents := rest.map (fun c =>
        (c.1, ((meanQ (c.2.map (fun o => o.lat)), meanQ (c.2.map (fun o => o.lon))) : Point)))
      noise.foldl (fun cs o =>
        let best := ((pyArgmin (fun c => ext.hq (o.lat, o.lon) c.2) cents).map
          (fun p => p.2.1)).getD 0
        appendToCluster cs best o) rest
    else clusters

/-! ### Routing service (`routing_service.py`) -/

/-- `RoutingService.get_osrm_table`: degenerate matrices for no points,
a local `ValueError` above the configured point ceiling, else the
external table call (whose response validation failures are the
oracle's error cases). -/
def get_osrm_table (ext : Ext) (st : Settings) (points : List Point) :
    Except String (Mat × Mat) :=
  if points = [] then Except.ok ([[]], [[]])
  else if st.OSRM_MAX_POINTS < points.length then Except.error "OSRM max points exceeded"
  else ext.osrmTable points

/-! ### Optimization service (`optimization_service.py`) -/

/-- `OptimizationService._build_points`: depot first (warehouse, else
drivers with a GPS fix, else the order centroid), then the orders. -/
def build_points (orders : List OrderRow) (driversData : Option (List DriverRow))
    (wh : Option Point) : List Point :=
  let pts : List Point :=
    match wh with
    | some w => [w]
    | none =>
        (driversData.getD []).filterMap (fun d =>
          match d.current_lat, d.current_lng with
          | some la, some ln => some ((la, ln) : Point)
          | _, _ => none)
  let pts := if pts = [] then
      (if orders ≠ [] then
        [((meanQ (orders.map (fun o => o.lat)), meanQ (orders.map (fun o => o.lon))) : Point)]
       else [])
    else pts
  pts ++ orders.map (fun o => ((o.lat, o.lon) : Point))

/-- `OptimizationService._solve_single`: fetch the OSRM matrices for
the OR-Tools path, re-raising the failure when the haversine fallback
flag is off and proceeding without matrices when it is on; then call
`plan_routes`. The outer handler re-raises the same exception. -/
def solve_single (ext : Ext) (st : Settings) (orders : List OrderRow) (drivers : Nat)
    (method : String) (use_ml : Bool) (driversData : Option (List DriverRow))
    (avg_speed_kmph : ℚ) (ortools_time_limit : ℤ) (use_osrm : Bool)
    (wh : Option Point) : Except String PlanResult :=
  let mats : Except String (Option Mat × Option Mat) :=
    if method = "ortools" && use_osrm then
      match get_osrm_table ext st (build_points orders driversData wh) with
      | Except.ok m => Except.ok (some m.1, some m.2)
      | Except.error e =>
          if ¬ st.OSRM_FALLBACK_HAVERSINE then Except.error e else Except.ok (none, none)
    else Except.ok (none, none)
  match mats with
  | Except.error e => Except.error e
  | Except.ok m =>
      plan_routes ext orders drivers method use_ml use_ml ortools_time_limit
        avg_speed_kmph 5 driversData m.1 m.2 wh

/-- `OptimizationService.calculate_routes`: batches above 50 orders in
OR-Tools mode are pre-clustered (eps 2 km, min size 3) and each cluster
solved independently with the same driver pool, concatenating routes
and unassigned sets; otherwise a single solve. -/
def calculate_routes (ext : Ext) (st : Settings) (orders : List OrderRow) (drivers : Nat)
    (method : String) (use_ml : Bool) (driversData : Option (List DriverRow))
    (avg_speed_kmph : ℚ) (ortools_time_limit : ℤ) (use_osrm : Bool) (wh : Option Point)
    (enable_clustering : Bool) : Except String PlanResult :=
  if enable_clustering && decide (50 < orders.length) && (method == "ortools") then
    let clusters := cluster_orders ext orders 2 3
    if 1 < clusters.length then
      match clusters.mapM (fun c =>
          solve_single ext st c.2 drivers method use_ml driversData avg_speed_kmph
            ortools_time_limit use_osrm wh) with
      | Except.error e => Except.error e
      | Except.ok subs =>
          Except.ok ⟨subs.flatMap (fun s => s.routes), method ++ "+clustered", orders.length,
            some (subs.flatMap (fun s => s.unassigned.getD []))⟩
    else
      solve_single ext st orders drivers method use_ml driversData avg_speed_kmph
        ortools_time_limit use_osrm wh
  else
    solve_single ext st orders drivers method use_ml driversData avg_speed_kmph
      ortools_time_limit use_osrm wh

/-! ### Reroute service (`reroute_service.py`) -/

/-- A persisted `Route` row: id, tenant, warehouse, assigned driver,
status, aggregates, the ordered stop ids and provenance stored in
`geometry_json`, and the warehouse-coordinate snapshot. -/
structure RouteRec where
  rid : Nat
  tenant : String
  warehouse : Option String
  driver : Option Nat
  status : String
  total_distance_km : ℚ
  total_duration_min : ℚ
  points : List Nat
  method : Option String
  wh_coords : Option Point
deriving DecidableEq

/-- A persisted `Order` row (fields used by the reroute flow). -/
structure OrderRec where
  oid : Nat
  tenant : String
  warehouse : Option String
  status : String
  lat : ℚ
  lng : ℚ
  weight : Option ℚ
  time_window : Option (ℤ × ℤ)
  route_id : Option Nat
deriving DecidableEq

/-- A persisted `Driver` row (fields used by the reroute flow). -/
structure DriverRec where
  did : Nat
  tenant : String
  warehouse : Option String
  status : String
  current_lat : Option ℚ
  current_lng : Option ℚ
  vehicle_capacity : Option ℤ
deriving DecidableEq

/-- The database state shared by the reroute flow, plus a fresh-id
counter for inserted routes. -/
structure Db where
  routes : List RouteRec
  orders : List OrderRec
  drivers : List DriverRec
  nextRouteId : Nat
deriving DecidableEq

/-- The status dict returned by `_reroute_warehouse`. -/
structure RStatus where
  status : String
  reason : Option String
  warehouse_id : Option String
  nRoutes : Option Nat
deriving DecidableEq

/-- `_build_drivers_payload`: non-offline drivers of the tenant,
scoped to the warehouse when one is given. -/
def build_drivers_payload (db : Db) (tenant : String) (wh : Option String) : List DriverRow :=
  (db.drivers.filter (fun d => d.tenant == tenant && d.status != "offline"
      && (match wh with | some w => d.warehouse == some w | none => true))).map
    (fun d => ⟨d.did, d.current_lat, d.current_lng, d.vehicle_capacity, none⟩)

/-- `_select_orders_for_reroute`: pending/assigned orders of the
tenant, scoped to the warehouse when one is given. -/
def select_orders_for_reroute (db : Db) (tenant : String) (wh : Option String) :
    List OrderRec :=
  db.orders.filter (fun o => o.tenant == tenant
    && (o.status == "pending" || o.status == "assigned")
    && (match wh with | some w => o.warehouse == some w | none => true))

/-- The solver-order dict `_reroute_warehouse` builds from a persisted
order (`distance_km` explicitly null, no traffic or service time). -/
def orderToRow (o : OrderRec) : OrderRow :=
  ⟨o.oid, o.lat, o.lng, none, o.weight, none, none, o.time_window⟩

/-- Re-link the first persisted order with the given id to a new route
(`db.query(Order).filter(Order.id == order_id).first()`). -/
def relinkOrder : List OrderRec → Nat → Nat → List OrderRec
  | [], _, _ => []
  | o :: os, oid, rid =>
      if o.oid = oid then { o with route_id := some rid, status := "assigned" } :: os
      else o :: relinkOrder os oid rid

/-- Re-link every stop of one new route. -/
def relinkAll (os : List OrderRec) (ids : List Nat) (rid : Nat) : List OrderRec :=
  ids.foldl (fun acc oid => relinkOrder acc oid rid) os

/-- The insert loop of `_reroute_warehouse`: enumerate the optimizer's
routes, skip empty ones, insert each non-empty one as an `active`
route for the warehouse (driver by position in the payload) and
re-link its stops. Returns the updated state and `len(new_routes)`. -/
def insertLoop (tenant wh : String) (coords : Point) (mth : String)
    (payload : List DriverRow) : Db → Nat → List ROut → Db × Nat
  | db, _, [] => (db, 0)
  | db, i, rd :: rds =>
      if rd.route = [] then insertLoop tenant wh coords mth payload db (i + 1) rds
      else
        let rid := db.nextRouteId
        let r : RouteRec :=
          ⟨rid, tenant, some wh, (payload.get? i).map (fun d => d.driver_id), "active",
            rd.load, rd.duration_min.getD 0, rd.route, some mth, some coords⟩
        let db1 : Db :=
          ⟨db.routes ++ [r], relinkAll db.orders rd.route rid, db.drivers, rid + 1⟩
        let next := insertLoop tenant wh coords mth payload db1 (i + 1) rds
        (next.1, next.2 + 1)

/-- `_reroute_warehouse`: select the warehouse's pending demand and
active drivers (skipping when either is empty), solve, skip when the
optimizer returns no routes, else supersede this warehouse's
planned/active routes and insert the new plan. -/
def reroute_warehouse (ext : Ext) (st : Settings) (db : Db) (tenant wh : String)
    (coords : Point) : Except String (Db × RStatus) :=
  let orders := select_orders_for_reroute db tenant (some wh)
  if orders = [] then Except.ok (db, ⟨"skipped", some "no orders", some wh, none⟩)
  else
    let payload := build_drivers_payload db tenant (some wh)
    if payload = [] then Except.ok (db, ⟨"skipped", some "no active drivers", some wh, none⟩)
    else
      match calculate_routes ext st (orders.map orderToRow) payload.length "ortools" true
          (some payload) st.REROUTE_AVG_SPEED_KMPH st.REROUTE_ORTOOLS_TIME_LIMIT true
          (some coords) true with
      | Except.error e => Except.error e
      | Except.ok result =>
          if result.routes = [] then
            Except.ok (db, ⟨"skipped", some "no routes", some wh, none⟩)
          else
            let db1 : Db := { db with routes := db.routes.map (fun r =>
              if r.tenant == tenant && r.warehouse == some wh
                  && (r.status == "planned" || r.status == "active")
              then { r with status := "superseded" } else r) }
            let fin := insertLoop tenant wh coords result.method payload db1 0 result.routes
            Except.ok (fin.1, ⟨"ok", none, some wh, some fin.2⟩)

/-- The routes currently `active` for a warehouse. -/
def activeRoutes (db : Db) (wh : String) : List RouteRec :=
  db.routes.filter (fun r => r.warehouse == some wh && r.status == "active")

/-- The pending or in-flight (not yet delivered) orders of a
warehouse. -/
def pendingOrders (db : Db) (wh : String) : List OrderRec :=
  db.orders.filter (fun o => o.warehouse == some wh
    && (o.status == "pending" || o.status == "assigned"))

deriving instance DecidableEq for Except

/-! ### Specification-side greedy assigner (for the C9 refinement)

The definitions below are written from the specification's words, not
from the source, and are compared with the embedded `greedy_vrp` by a
proved refinement theorem: priority = predicted delay (0 when absent)
plus distance from the reference point, times the traffic-level weight
(low 0.8, medium 1.0, high 1.3) when a traffic level is present; stops
processed in descending priority; each stop goes to the vehicle with
the lowest accumulated load, ties broken by the lowest vehicle
index. -/

/-- Spec-side traffic-level multiplier table
(low 0.8, medium 1.0, high 1.3). -/
def specTrafficMult (lvl : String) : ℚ :=
  if lvl = "low" then 8/10 else if lvl = "medium" then 1
  else if lvl = "high" then 13/10 else 1

/-- Spec-side priority of one stop: predicted delay plus distance from
the reference point, multiplied by the traffic-level weight when a
traffic level is present. -/
def specPriority (pred_delay : ℚ) (o : OrderRow) : ℚ :=
  match o.traffic with
  | some lvl => (pred_delay + o.distance_km.getD 0) * specTrafficMult lvl
  | none => pred_delay + o.distance_km.getD 0

/-- Spec-side scored stop list sorted by descending priority (stable
insertion sort over `(stop, delay, priority)` triples). -/
def specInsertDesc (x : OrderRow × ℚ × ℚ) :
    List (OrderRow × ℚ × ℚ) → List (OrderRow × ℚ × ℚ)
  | [] => [x]
  | y :: ys => if x.2.2 ≤ y.2.2 then y :: specInsertDesc x ys else x :: y :: ys

/-- Spec-side descending sort by priority. -/
def specSortDesc (l : List (OrderRow × ℚ × ℚ)) : List (OrderRow × ℚ × ℚ) :=
  l.foldr specInsertDesc []

/-- Spec-side vehicle choice: the lowest index among the vehicles of
minimal accumulated load. -/
def specLeastLoaded (vs : List ROut) : Nat :=
  (vs.findIdx? (fun v => vs.all (fun w => v.load ≤ w.load))).getD 0

/-- Spec-side assignment of one stop: append it to the least-loaded
vehicle's route and add `distance + delay` to that vehicle's load. -/
def specAssign (vs : List ROut) (x : OrderRow × ℚ × ℚ) : List ROut :=
  match vs.get? (specLeastLoaded vs) with
  | none => vs
  | some v => vs.set (specLeastLoaded vs)
      { v with
        route := v.route ++ [x.1.order_id]
        load := v.load + (x.1.distance_km.getD 0 + x.2.1) }

/-- Spec-side greedy assigner: score, sort descending, assign each
stop in turn to the least-loaded vehicle. -/
def specGreedyAssign (orders : List OrderRow) (preds : Option (List ℚ))
    (drivers : Nat) : List ROut :=
  let pds := preds.getD (List.replicate orders.length 0)
  (specSortDesc ((orders.zip pds).map (fun p => (p.1, p.2, specPriority p.2 p.1)))).foldl
    specAssign
    ((List.range drivers).map (fun i =>
      ({ id := i, route := [], load := 0, duration_min := none } : ROut)))

/-- Bridge between the two row representations: a spec-side triple as
the source-side dataframe row. -/
def specRowToGRow (x : OrderRow × ℚ × ℚ) : GRow := ⟨x.1, x.2.1, x.2.2⟩

/-- Proof-side restatement of CPython's `min` with indices (first
element achieving the minimal key), by structural recursion; proved
equal to `pyArgmin`. -/
def argminIdx {α : Type} (key : α → ℚ) : List α → Option (Nat × α)
  | [] => none
  | x :: xs => match argminIdx key xs with
      | none => some (0, x)
      | some (j, y) => if key y < key x then some (j + 1, y) else some (0, x)

/-! ## Supporting lemmas -/

theorem pyRound_nearest (q : ℚ) : |((pyRound q : ℤ) : ℚ) - q| ≤ 1/2 := by
  have h0 : (0 : ℚ) ≤ q - (⌊q⌋ : ℚ) := by
    have := Int.floor_le q; linarith
  have h1 : q - (⌊q⌋ : ℚ) < 1 := by
    have := Int.lt_floor_add_one q; linarith
  simp only [pyRound]
  split_ifs with ha hb hc
  · rw [abs_le]; constructor <;> linarith
  · rw [abs_le]; push_cast; constructor <;> linarith
  · have hr : q - (⌊q⌋ : ℚ) = 1/2 := le_antisymm (not_lt.mp hb) (not_lt.mp ha)
    rw [abs_le]; constructor <;> linarith
  · have hr : q - (⌊q⌋ : ℚ) = 1/2 := le_antisymm (not_lt.mp hb) (not_lt.mp ha)
    rw [abs_le]; push_cast; constructor <;> linarith

theorem one_le_demandOf (w : Option ℚ) : 1 ≤ demandOf w := le_max_left 1 _

theorem insertRowDesc_length (x : GRow) (l : List GRow) :
    (insertRowDesc x l).length = l.length + 1 := by
  induction l with
  | nil => rfl
  | cons y ys ih => simp only [insertRowDesc]; split <;> simp [ih]

theorem sortRowsDesc_length (l : List GRow) : (sortRowsDesc l).length = l.length := by
  induction l with
  | nil => rfl
  | cons y ys ih => simp only [sortRowsDesc, List.foldr_cons] at ih ⊢
                    rw [insertRowDesc_length, ih]; simp

theorem prepOrders_length (hav : Point → Point → ℚ) (depot : Option Point)
    (orders : List OrderRow) : (prepOrders hav depot orders).length = orders.length := by
  simp only [prepOrders]; split <;> simp

theorem foldlM_greedyStep_nil_error (l : List GRow) (h : l ≠ []) :
    l.foldlM greedyStep [] = Except.error "min() arg is an empty sequence" := by
  cases l with
  | nil => exact absurd rfl h
  | cons g gs => rfl

theorem foldlM_greedyStep_ok (l : List GRow) :
    ∀ ds : List ROut, ds ≠ [] →
      ∃ ds', l.foldlM greedyStep ds = Except.ok ds' ∧ ds'.length = ds.length := by
  induction l with
  | nil => exact fun ds _ => ⟨ds, rfl, rfl⟩
  | cons g gs ih =>
      intro ds hds
      match hm : ds with
      | d :: rest =>
        have hstep : greedyStep (d :: rest) g
            = Except.ok ((d :: rest).set (pyArgmin.pyArgminGo (fun x => x.load) 0 d 1 rest).1
              { (pyArgmin.pyArgminGo (fun x => x.load) 0 d 1 rest).2 with
                route := (pyArgmin.pyArgminGo (fun x => x.load) 0 d 1 rest).2.route
                  ++ [g.row.order_id]
                load := (pyArgmin.pyArgminGo (fun x => x.load) 0 d 1 rest).2.load
                  + (g.row.distance_km.getD 0 + g.pred_delay) }) := rfl
        have hne : ((d :: rest).set (pyArgmin.pyArgminGo (fun x => x.load) 0 d 1 rest).1
            { (pyArgmin.pyArgminGo (fun x => x.load) 0 d 1 rest).2 with
              route := (pyArgmin.pyArgminGo (fun x => x.load) 0 d 1 rest).2.route
                ++ [g.row.order_id]
              load := (pyArgmin.pyArgminGo (fun x => x.load) 0 d 1 rest).2.load
                + (g.row.distance_km.getD 0 + g.pred_delay) }) ≠ [] := by
          intro hcon
          have := congrArg List.length hcon
          simp at this
        obtain ⟨ds', h1, h2⟩ := ih _ hne
        refine ⟨ds', ?_, ?_⟩
        · simpa [List.foldlM, hstep] using h1
        · rw [h2]; simp

theorem greedy_vrp_ok (orders : List OrderRow) (preds : Option (List ℚ)) (drivers : Nat)
    (tf : Bool) (hd : 0 < drivers)
    (hp : preds = none ∨ ∃ l, preds = some l ∧ l.length = orders.length) :
    ∃ rs, greedy_vrp orders preds drivers tf = Except.ok rs ∧ rs.length = drivers := by
  have hps : (preds.getD (List.replicate orders.length 0)).length = orders.length := by
    rcases hp with h | ⟨l, hl, hlen⟩
    · rw [h]; simp
    · rw [hl]; simpa using hlen
  have hinit : ((List.range drivers).map
      (fun i => ({ id := i, route := [], load := 0, duration_min := none } : ROut))) ≠ [] := by
    intro hcon
    have := congrArg List.length hcon
    simp at this
    omega
  obtain ⟨rs, h1, h2⟩ := foldlM_greedyStep_ok _ _ hinit
  refine ⟨rs, ?_, by simpa using h2⟩
  simp only [greedy_vrp, hps]
  split
  · rename_i hC; exact absurd rfl hC
  · exact h1

/-! Clustering lemmas. -/

theorem insertLabeled_ne_nil (acc : List (ℤ × List OrderRow)) (o : OrderRow) (l : ℤ)
    (h : ∀ c ∈ acc, c.2 ≠ []) : ∀ c ∈ insertLabeled acc o l, c.2 ≠ [] := by
  induction acc with
  | nil => intro c hc; simp only [insertLabeled, List.mem_singleton] at hc; subst hc; simp
  | cons a rest ih =>
      intro c hc
      simp only [insertLabeled] at hc
      split at hc
      · rcases List.mem_cons.mp hc with hc | hc
        · subst hc; simp
        · exact h c (List.mem_cons_of_mem _ hc)
      · rcases List.mem_cons.mp hc with hc | hc
        · subst hc; exact h _ (List.mem_cons_self _ _)
        · exact ih (fun c hc => h c (List.mem_cons_of_mem _ hc)) c hc

theorem groupByLabel_ne_nil (ol : List (OrderRow × ℤ)) :
    ∀ c ∈ groupByLabel ol, c.2 ≠ [] := by
  suffices hgen : ∀ (acc : List (ℤ × List OrderRow)), (∀ c ∈ acc, c.2 ≠ []) →
      ∀ c ∈ ol.foldl (fun acc p => insertLabeled acc p.1 p.2) acc, c.2 ≠ [] by
    exact hgen [] (by simp)
  induction ol with
  | nil => intro acc h; simpa using h
  | cons p tl ih =>
      intro acc h
      exact ih _ (insertLabeled_ne_nil acc p.1 p.2 h)

theorem insertLabeled_join_perm (acc : List (ℤ × List OrderRow)) (o : OrderRow) (l : ℤ) :
    ((insertLabeled acc o l).map (fun c => c.2)).join.Perm
      (((acc.map (fun c => c.2)).join) ++ [o]) := by
  induction acc with
  | nil => simp [insertLabeled]
  | cons a rest ih =>
      simp only [insertLabeled]
      split
      · simp only [List.map_cons, List.join_cons, List.append_assoc]
        exact List.Perm.append_left a.2 List.perm_append_comm.symm
      · simp only [List.map_cons, List.join_cons]
        refine (List.Perm.append_left a.2 ih).trans ?_
        rw [List.append_assoc]

theorem groupByLabel_join_perm (ol : List (OrderRow × ℤ)) :
    ((groupByLabel ol).map (fun c => c.2)).join.Perm (ol.map (fun p => p.1)) := by
  suffices hgen : ∀ (acc : List (ℤ × List OrderRow)),
      (((ol.foldl (fun acc p => insertLabeled acc p.1 p.2) acc).map (fun c => c.2)).join).Perm
        ((acc.map (fun c => c.2)).join ++ ol.map (fun p => p.1)) by
    simpa using hgen []
  induction ol with
  | nil => intro acc; simp
  | cons p tl ih =>
      intro acc
      simp only [List.foldl_cons, List.map_cons]
      refine (ih (insertLabeled acc p.1 p.2)).trans ?_
      refine (List.Perm.append_right (tl.map (fun p => p.1))
        (insertLabeled_join_perm acc p.1 p.2)).trans ?_
      rw [List.append_assoc]
      rfl

theorem insertLabeled_keys (acc : List (ℤ × List OrderRow)) (o : OrderRow) (l : ℤ) :
    (insertLabeled acc o l).map (fun c => c.1)
      = if l ∈ acc.map (fun c => c.1) then acc.map (fun c => c.1)
        else acc.map (fun c => c.1) ++ [l] := by
  induction acc with
  | nil => simp [insertLabeled]
  | cons a rest ih =>
      simp only [insertLabeled]
      split
      · rename_i heq
        simp [heq]
      · rename_i hne
        simp only [List.map_cons, ih, List.mem_cons]
        by_cases hm : l ∈ rest.map (fun c => c.1)
        · rw [if_pos hm, if_pos (Or.inr hm)]
        · rw [if_neg hm, if_neg ?_]
          · rfl
          · rintro (h | h)
            · exact hne h.symm
            · exact hm h

theorem insertLabeled_keys_nodup (acc : List (ℤ × List OrderRow)) (o : OrderRow) (l : ℤ)
    (h : (acc.map (fun c => c.1)).Nodup) :
    ((insertLabeled acc o l).map (fun c => c.1)).Nodup := by
  rw [insertLabeled_keys]
  split
  · exact h
  · rename_i hm
    rw [List.nodup_append]
    refine ⟨h, List.nodup_singleton l, ?_⟩
    intro x hx hx2
    rw [List.mem_singleton] at hx2
    subst hx2
    exact hm hx

theorem groupByLabel_keys_nodup (ol : List (OrderRow × ℤ)) :
    ((groupByLabel ol).map (fun c => c.1)).Nodup := by
  suffices hgen : ∀ (acc : List (ℤ × List OrderRow)), (acc.map (fun c => c.1)).Nodup →
      (((ol.foldl (fun acc p => insertLabeled acc p.1 p.2) acc)).map (fun c => c.1)).Nodup by
    exact hgen [] (by simp)
  induction ol with
  | nil => intro acc h; simpa using h
  | cons p tl ih =>
      intro acc h
      exact ih _ (insertLabeled_keys_nodup acc p.1 p.2 h)

theorem mem_keys_insertLabeled (acc : List (ℤ × List OrderRow)) (o : OrderRow) (l l' : ℤ)
    (h : l' ∈ acc.map (fun c => c.1) ∨ l' = l) :
    l' ∈ (insertLabeled acc o l).map (fun c => c.1) := by
  rw [insertLabeled_keys]
  split
  · rcases h with h | h
    · exact h
    · subst h; assumption
  · rcases h with h | h
    · exact List.mem_append_left _ h
    · subst h; exact List.mem_append_right _ (by simp)

theorem keys_foldl_mono (tl : List (OrderRow × ℤ)) (l : ℤ) :
    ∀ acc : List (ℤ × List OrderRow), l ∈ acc.map (fun c => c.1) →
      l ∈ ((tl.foldl (fun acc p => insertLabeled acc p.1 p.2) acc)).map (fun c => c.1) := by
  induction tl with
  | nil => intro acc h; simpa using h
  | cons p tl ih =>
      intro acc h
      simp only [List.foldl_cons]
      exact ih _ (mem_keys_insertLabeled acc p.1 p.2 l (Or.inl h))

theorem mem_keys_groupByLabel (ol : List (OrderRow × ℤ)) (o : OrderRow) (l : ℤ)
    (h : (o, l) ∈ ol) : l ∈ (groupByLabel ol).map (fun c => c.1) := by
  have hgen : ∀ (ol' : List (OrderRow × ℤ)) (acc : List (ℤ × List OrderRow)),
      (o, l) ∈ ol' →
      l ∈ ((ol'.foldl (fun acc p => insertLabeled acc p.1 p.2) acc)).map (fun c => c.1) := by
    intro ol'
    induction ol' with
    | nil => intro acc hm; simp at hm
    | cons p tl ih =>
        intro acc hm
        simp only [List.foldl_cons]
        rcases List.mem_cons.mp hm with hm | hm
        · refine keys_foldl_mono tl l _ ?_
          refine mem_keys_insertLabeled acc p.1 p.2 l (Or.inr ?_)
          rw [← hm]
        · exact ih _ hm
  exact hgen ol [] h

theorem pyArgminGo_mem {α : Type} (key : α → ℚ) (ys : List α) :
    ∀ (bi : Nat) (b : α) (i : Nat),
      (pyArgmin.pyArgminGo key bi b i ys).2 = b ∨ (pyArgmin.pyArgminGo key bi b i ys).2 ∈ ys := by
  induction ys with
  | nil => intro bi b i; exact Or.inl rfl
  | cons y ys ih =>
      intro bi b i
      simp only [pyArgmin.pyArgminGo]
      split
      · rcases ih i y (i + 1) with h | h
        · exact Or.inr (by rw [h]; exact List.mem_cons_self _ _)
        · exact Or.inr (List.mem_cons_of_mem _ h)
      · rcases ih bi b (i + 1) with h | h
        · exact Or.inl h
        · exact Or.inr (List.mem_cons_of_mem _ h)

theorem pyArgmin_mem {α : Type} (key : α → ℚ) (l : List α) (p : Nat × α)
    (h : pyArgmin key l = some p) : p.2 ∈ l := by
  cases l with
  | nil => simp [pyArgmin] at h
  | cons x xs =>
      simp only [pyArgmin, Option.some_inj] at h
      subst h
      rcases pyArgminGo_mem key xs 0 x 1 with hm | hm
      · rw [hm]; exact List.mem_cons_self _ _
      · exact List.mem_cons_of_mem _ hm

theorem find_filter_join_perm (cs : List (ℤ × List OrderRow))
    (hnd : (cs.map (fun c => c.1)).Nodup) (c₀ : ℤ × List OrderRow)
    (hf : cs.find? (fun c => c.1 = -1) = some c₀) :
    ((cs.map (fun c => c.2)).join).Perm
      (c₀.2 ++ ((cs.filter (fun c => ¬ (c.1 = -1))).map (fun c => c.2)).join) := by
  induction cs with
  | nil => simp at hf
  | cons a rest ih =>
      by_cases ha : a.1 = -1
      · rw [List.find?_cons_of_pos _ (by simpa using ha)] at hf
        have hc : c₀ = a := by injection hf with h; rw [← h]
        rw [hc]
        have hnotin : a.1 ∉ rest.map (fun c => c.1) := by
          have := (List.nodup_cons.mp hnd).1
          simpa using this
        have hrest : rest.filter (fun c => ¬ (c.1 = -1)) = rest := by
          rw [List.filter_eq_self]
          intro c hc
          have hkey : c.1 ∈ rest.map (fun c => c.1) := List.mem_map_of_mem _ hc
          simp only [decide_eq_true_eq]
          intro hcon
          exact hnotin (by rw [ha, ← hcon]; exact hkey)
        rw [List.filter_cons_of_neg (by simpa using ha), hrest]
        simp
      · rw [List.find?_cons_of_neg _ (by simpa using ha)] at hf
        have ihp := ih (List.nodup_cons.mp hnd).2 hf
        rw [List.filter_cons_of_pos (by simpa using ha)]
        simp only [List.map_cons, List.join_cons]
        refine (List.Perm.append_left a.2 ihp).trans ?_
        rw [← List.append_assoc, ← List.append_assoc]
        exact List.Perm.append_right _ List.perm_append_comm

theorem appendToCluster_keys (cs : List (ℤ × List OrderRow)) (cid : ℤ) (o : OrderRow) :
    (appendToCluster cs cid o).map (fun c => c.1) = cs.map (fun c => c.1) := by
  simp only [appendToCluster, List.map_map]
  refine List.map_congr_left ?_
  intro c _
  simp only [Function.comp]
  split <;> rfl

theorem appendToCluster_ne_nil (cs : List (ℤ × List OrderRow)) (cid : ℤ) (o : OrderRow)
    (h : ∀ c ∈ cs, c.2 ≠ []) : ∀ c ∈ appendToCluster cs cid o, c.2 ≠ [] := by
  intro c hc
  simp only [appendToCluster, List.mem_map] at hc
  obtain ⟨x, hx, hxc⟩ := hc
  subst hxc
  split
  · simp
  · exact h x hx

theorem appendToCluster_eq_self (cs : List (ℤ × List OrderRow)) (cid : ℤ) (o : OrderRow)
    (h : ∀ c ∈ cs, c.1 ≠ cid) : appendToCluster cs cid o = cs := by
  induction cs with
  | nil => rfl
  | cons a rest ih =>
      simp only [appendToCluster, List.map_cons]
      rw [if_neg (h a (List.mem_cons_self _ _))]
      have := ih (fun c hc => h c (List.mem_cons_of_mem _ hc))
      simp only [appendToCluster] at this
      rw [this]

theorem appendToCluster_join_perm (cs : List (ℤ × List OrderRow)) (cid : ℤ) (o : OrderRow)
    (hnd : (cs.map (fun c => c.1)).Nodup) (hmem : cid ∈ cs.map (fun c => c.1)) :
    (((appendToCluster cs cid o).map (fun c => c.2)).join).Perm
      (o :: ((cs.map (fun c => c.2)).join)) := by
  induction cs with
  | nil => simp at hmem
  | cons a rest ih =>
      have hnd1 : a.1 ∉ rest.map (fun c => c.1) := by
        have := (List.nodup_cons.mp hnd).1
        simpa using this
      by_cases ha : a.1 = cid
      · have hnotin : ∀ c ∈ rest, c.1 ≠ cid := by
          intro c hc hcon
          refine hnd1 ?_
          rw [ha, ← hcon]
          exact List.mem_map_of_mem _ hc
        simp only [appendToCluster, List.map_cons]
        rw [if_pos ha]
        have hrest : rest.map (fun c => if c.1 = cid then (c.1, c.2 ++ [o]) else c) = rest := by
          have := appendToCluster_eq_self rest cid o hnotin
          simpa [appendToCluster] using this
        rw [hrest]
        simp only [List.map_cons, List.join_cons, List.append_assoc,
          List.singleton_append]
        exact List.perm_middle
      · have hmem' : cid ∈ rest.map (fun c => c.1) := by
          rw [List.map_cons] at hmem
          rcases List.mem_cons.mp hmem with h | h
          · exact absurd h.symm ha
          · exact h
        have ihp := ih (List.nodup_cons.mp hnd).2 hmem'
        simp only [appendToCluster, List.map_cons] at ihp ⊢
        rw [if_neg ha]
        simp only [List.map_cons, List.join_cons]
        refine (List.Perm.append_left a.2 ihp).trans ?_
        exact List.perm_middle

theorem mergeFold_props (B : OrderRow → ℤ) (noise : List OrderRow) :
    ∀ cs : List (ℤ × List OrderRow), (cs.map (fun c => c.1)).Nodup →
      (∀ o', B o' ∈ cs.map (fun c => c.1)) → (∀ c ∈ cs, c.2 ≠ []) →
      ((noise.foldl (fun cs o => appendToCluster cs (B o) o) cs).map (fun c => c.1)
          = cs.map (fun c => c.1))
      ∧ (((noise.foldl (fun cs o => appendToCluster cs (B o) o) cs).map
            (fun c => c.2)).join).Perm (noise ++ (cs.map (fun c => c.2)).join)
      ∧ (∀ c ∈ noise.foldl (fun cs o => appendToCluster cs (B o) o) cs, c.2 ≠ []) := by
  induction noise with
  | nil => intro cs hnd hB hne; exact ⟨rfl, by simp, hne⟩
  | cons o rest ih =>
      intro cs hnd hB hne
      simp only [List.foldl_cons]
      have hkeys := appendToCluster_keys cs (B o) o
      obtain ⟨k1, k2, k3⟩ := ih (appendToCluster cs (B o) o)
        (by rw [hkeys]; exact hnd) (fun o' => by rw [hkeys]; exact hB o')
        (appendToCluster_ne_nil cs (B o) o hne)
      refine ⟨by rw [k1, hkeys], ?_, k3⟩
      refine k2.trans ?_
      refine (List.Perm.append_left rest (appendToCluster_join_perm cs (B o) o hnd (hB o))).trans ?_
      exact List.perm_middle

theorem findIdx_first {α : Type} (p : α → Bool) :
    ∀ (l : List α) (i : Nat) (x : α), l.get? i = some x → p x = true →
      (∀ j y, j < i → l.get? j = some y → p y = false) →
      l.findIdx? p = some i := by
  intro l
  induction l with
  | nil => intro i x hget _ _; simp at hget
  | cons a as ih =>
      intro i x hget hp hbef
      rcases i with _ | i
      · have hax : a = x := Option.some.inj hget
        rw [List.findIdx?_cons, hax, hp]
        simp
      · have hpa : p a = false := hbef 0 a (Nat.succ_pos i) rfl
        have hrec := ih i x hget hp (fun j y hj hy => hbef (j + 1) y (by omega) hy)
        rw [List.findIdx?_cons, hpa]
        simp [hrec]

theorem argminIdx_cons_isSome {α : Type} (key : α → ℚ) (z : α) (zs : List α) :
    (argminIdx key (z :: zs)).isSome = true := by
  rcases hz : argminIdx key zs with _ | ⟨j, y⟩
  · simp only [argminIdx, hz]
    rfl
  · simp only [argminIdx, hz]
    split <;> rfl

theorem argminIdx_first_min {α : Type} (key : α → ℚ) :
    ∀ (l : List α), l ≠ [] →
      ∃ i b, argminIdx key l = some (i, b) ∧ l.get? i = some b
        ∧ (∀ w ∈ l, key b ≤ key w)
        ∧ (∀ j y, j < i → l.get? j = some y → key b < key y) := by
  intro l
  induction l with
  | nil => intro h; exact absurd rfl h
  | cons a as ih =>
      intro _
      by_cases hnil : as = []
      · subst hnil
        refine ⟨0, a, rfl, rfl, ?_, ?_⟩
        · intro w hw
          obtain rfl := List.mem_singleton.mp hw
          exact le_refl _
        · intro j y hj _
          omega
      · obtain ⟨j, y, h1, h2, h3, h4⟩ := ih hnil
        have hval : argminIdx key (a :: as)
            = if key y < key a then some (j + 1, y) else some (0, a) := by
          simp only [argminIdx, h1]
        by_cases hlt : key y < key a
        · rw [if_pos hlt] at hval
          refine ⟨j + 1, y, hval, h2, ?_, ?_⟩
          · intro w hw
            rcases List.mem_cons.mp hw with rfl | hw
            · exact le_of_lt hlt
            · exact h3 w hw
          · intro j' y' hj' hy'
            rcases j' with _ | j''
            · obtain rfl := Option.some.inj hy'
              exact hlt
            · exact h4 j'' y' (by omega) hy'
        · rw [if_neg hlt] at hval
          refine ⟨0, a, hval, rfl, ?_, ?_⟩
          · intro w hw
            rcases List.mem_cons.mp hw with rfl | hw
            · exact le_refl _
            · exact le_trans (not_lt.mp hlt) (h3 w hw)
          · intro j' y' hj' _
            omega

theorem pyArgminGo_eq {α : Type} (key : α → ℚ) :
    ∀ (ys : List α) (b : α) (bi i : Nat) (j : Nat) (y : α),
      (argminIdx key ys = none → pyArgmin.pyArgminGo key bi b i ys = (bi, b))
      ∧ (argminIdx key ys = some (j, y) →
          pyArgmin.pyArgminGo key bi b i ys
            = if key y < key b then (i + j, y) else (bi, b)) := by
  intro ys
  induction ys with
  | nil =>
      intro b bi i j y
      exact ⟨fun _ => rfl, fun h => absurd h (by simp [argminIdx])⟩
  | cons z zs ih =>
      intro b bi i j y
      constructor
      · intro h
        have hs := argminIdx_cons_isSome key z zs
        rw [h] at hs
        simp at hs
      · intro h
        simp only [pyArgmin.pyArgminGo]
        rcases hz : argminIdx key zs with _ | ⟨j0, y0⟩
        · have hred : argminIdx key (z :: zs) = some (0, z) := by
            simp only [argminIdx, hz]
          rw [hred] at h
          obtain ⟨h5, h6⟩ := Prod.mk.injEq 0 z j y |>.mp (Option.some.inj h)
          subst h6
          have ec1 := (ih z i (i + 1) 0 z).1 hz
          have ec2 := (ih b bi (i + 1) 0 z).1 hz
          by_cases h1 : key z < key b
          · rw [if_pos h1, ec1, if_pos h1]
            exact Prod.ext (by omega) rfl
          · rw [if_neg h1, ec2, if_neg h1]
        · have hred : argminIdx key (z :: zs)
              = if key y0 < key z then some (j0 + 1, y0) else some (0, z) := by
            simp only [argminIdx, hz]
          rw [hred] at h
          by_cases h3 : key y0 < key z
          · rw [if_pos h3] at h
            obtain ⟨h5, h6⟩ := Prod.mk.injEq (j0 + 1) y0 j y |>.mp (Option.some.inj h)
            subst h6
            by_cases h1 : key z < key b
            · rw [if_pos h1]
              have ec := (ih z i (i + 1) j0 y0).2 hz
              rw [ec, if_pos h3, if_pos (lt_trans h3 h1)]
              exact Prod.ext (by omega) rfl
            · rw [if_neg h1]
              have ec := (ih b bi (i + 1) j0 y0).2 hz
              rw [ec]
              by_cases h4 : key y0 < key b
              · rw [if_pos h4, if_pos h4]
                exact Prod.ext (by omega) rfl
              · rw [if_neg h4, if_neg h4]
          · rw [if_neg h3] at h
            obtain ⟨h5, h6⟩ := Prod.mk.injEq 0 z j y |>.mp (Option.some.inj h)
            subst h6
            by_cases h1 : key z < key b
            · rw [if_pos h1]
              have ec := (ih z i (i + 1) j0 y0).2 hz
              rw [ec, if_neg h3, if_pos h1]
              exact Prod.ext (by omega) rfl
            · rw [if_neg h1]
              have ec := (ih b bi (i + 1) j0 y0).2 hz
              rw [ec, if_neg (not_lt.mpr (le_trans (not_lt.mp h1) (not_lt.mp h3))),
                if_neg h1]

theorem pyArgmin_eq_argminIdx {α : Type} (key : α → ℚ) (l : List α) :
    pyArgmin key l = argminIdx key l := by
  rcases l with _ | ⟨x, xs⟩
  · rfl
  · simp only [pyArgmin]
    rcases hz : argminIdx key xs with _ | ⟨j, y⟩
    · rw [(pyArgminGo_eq key xs x 0 1 0 x).1 hz]
      simp only [argminIdx, hz]
    · rw [(pyArgminGo_eq key xs x 0 1 j y).2 hz]
      simp only [argminIdx, hz]
      by_cases h3 : key y < key x
      · rw [if_pos h3, if_pos h3]
        simp [Nat.add_comm]
      · rw [if_neg h3, if_neg h3]

theorem pyArgmin_specLeastLoaded (vs : List ROut) (h : vs ≠ []) :
    ∃ v, pyArgmin (fun d => d.load) vs = some (specLeastLoaded vs, v)
      ∧ vs.get? (specLeastLoaded vs) = some v := by
  obtain ⟨i, b, h1, h2, h3, h4⟩ := argminIdx_first_min (fun d => d.load) vs h
  have hf : vs.findIdx? (fun v => vs.all (fun w => v.load ≤ w.load)) = some i := by
    apply findIdx_first _ vs i b h2
    · simp only [List.all_eq_true]
      intro w hw
      exact decide_eq_true (h3 w hw)
    · intro j y hj hy
      have hby : b.load < y.load := h4 j y hj hy
      rw [List.all_eq_false]
      exact ⟨b, List.get?_mem h2, by simp [not_le.mpr hby]⟩
  have hsp : specLeastLoaded vs = i := by
    rw [specLeastLoaded, hf]
    rfl
  exact ⟨b, by rw [pyArgmin_eq_argminIdx, h1, hsp], by rw [hsp]; exact h2⟩

theorem appendToCluster_mem (cs : List (ℤ × List OrderRow)) (k : ℤ) (o : OrderRow)
    (hk : k ∈ cs.map (fun c => c.1)) :
    ∃ c ∈ appendToCluster cs k o, c.1 = k ∧ o ∈ c.2 := by
  obtain ⟨c, hc, hck⟩ := List.mem_map.mp hk
  have hmem := List.mem_map_of_mem (fun c => if c.1 = k then (c.1, c.2 ++ [o]) else c) hc
  simp only [] at hmem
  rw [if_pos hck] at hmem
  exact ⟨(c.1, c.2 ++ [o]), hmem, hck, List.mem_append_right _ (List.mem_singleton_self o)⟩

theorem appendToCluster_keep (cs : List (ℤ × List OrderRow)) (cid : ℤ) (o' : OrderRow)
    (k : ℤ) (o : OrderRow) (h : ∃ c ∈ cs, c.1 = k ∧ o ∈ c.2) :
    ∃ c ∈ appendToCluster cs cid o', c.1 = k ∧ o ∈ c.2 := by
  obtain ⟨c, hc, hck, hco⟩ := h
  have hmem := List.mem_map_of_mem (fun c => if c.1 = cid then (c.1, c.2 ++ [o']) else c) hc
  simp only [] at hmem
  by_cases hcc : c.1 = cid
  · rw [if_pos hcc] at hmem
    exact ⟨(c.1, c.2 ++ [o']), hmem, hck, List.mem_append_left _ hco⟩
  · rw [if_neg hcc] at hmem
    exact ⟨c, hmem, hck, hco⟩

theorem mergeFold_keep (B : OrderRow → ℤ) (noise : List OrderRow) :
    ∀ (cs : List (ℤ × List OrderRow)) (k : ℤ) (o : OrderRow),
      (∃ c ∈ cs, c.1 = k ∧ o ∈ c.2) →
      ∃ c ∈ noise.foldl (fun cs o => appendToCluster cs (B o) o) cs, c.1 = k ∧ o ∈ c.2 := by
  induction noise with
  | nil => intro cs k o h; exact h
  | cons o' rest ih =>
      intro cs k o h
      simp only [List.foldl_cons]
      exact ih _ k o (appendToCluster_keep cs (B o') o' k o h)

theorem mergeFold_mem (B : OrderRow → ℤ) (noise : List OrderRow) :
    ∀ cs : List (ℤ × List OrderRow),
      (∀ o' : OrderRow, B o' ∈ cs.map (fun c => c.1)) →
      ∀ o ∈ noise, ∃ c ∈ noise.foldl (fun cs o => appendToCluster cs (B o) o) cs,
        c.1 = B o ∧ o ∈ c.2 := by
  induction noise with
  | nil => intro cs _ o ho; exact absurd ho (List.not_mem_nil o)
  | cons o' rest ih =>
      intro cs hB o ho
      simp only [List.foldl_cons]
      have hB' : ∀ o'' : OrderRow,
          B o'' ∈ (appendToCluster cs (B o') o').map (fun c => c.1) := by
        intro o''
        rw [appendToCluster_keys]
        exact hB o''
      rcases List.mem_cons.mp ho with rfl | ho'
      · exact mergeFold_keep B rest _ (B o) o
          (appendToCluster_mem cs (B o) o (hB o))
      · exact ih _ hB' o ho'

theorem buildVrpInput_demands (hav : Point → Point → ℚ) (df : List OrderRow) (drivers : Nat)
    (dd : Option (List DriverRow)) (depot : Option Point) (dmOpt tmOpt : Option Mat)
    (speed : ℚ) (tl stm : ℤ) :
    (buildVrpInput hav df drivers dd depot dmOpt tmOpt speed tl stm).demands
      = List.replicate (planDepotInfo df drivers dd depot).1.length 0
          ++ df.map (fun o => demandOf o.weight) := rfl

/-! ## Claims -/

/-- C10: in the model `plan_routes` hands to the constrained solver,
the demand registered for the `i`-th stop (at node `depot_count + i`)
is the stop's weight rounded to the nearest integer (Python `round`,
half to even — a nearest rounding) and clamped below at 1, so every
stop consumes at least one unit of vehicle capacity. -/
theorem c10_demand_round_clamp (hav : Point → Point → ℚ) (df : List OrderRow) (drivers : Nat)
    (dd : Option (List DriverRow)) (depot : Option Point) (dmOpt tmOpt : Option Mat)
    (speed : ℚ) (tl stm : ℤ) (i : Nat) (o : OrderRow) (h : df.get? i = some o) :
    (buildVrpInput hav df drivers dd depot dmOpt tmOpt speed tl stm).demands.get?
        ((planDepotInfo df drivers dd depot).1.length + i) = some (demandOf o.weight)
    ∧ demandOf o.weight = max 1 (pyRound ((o.weight).getD 1))
    ∧ 1 ≤ demandOf o.weight
    ∧ |((pyRound ((o.weight).getD 1) : ℤ) : ℚ) - (o.weight).getD 1| ≤ 1/2 := by
  refine ⟨?_, rfl, one_le_demandOf o.weight, pyRound_nearest _⟩
  rw [buildVrpInput_demands]
  rw [List.get?_append_right (by simp)]
  simp only [List.length_replicate, Nat.add_sub_cancel_left, List.get?_map, h]
  rfl

theorem greedy_vrp_zero (orders : List OrderRow) (tf : Bool) (h : orders ≠ []) :
    greedy_vrp orders none 0 tf = Except.error "min() arg is an empty sequence" := by
  simp only [greedy_vrp, Option.getD_none, List.length_replicate]
  rw [if_neg (by simp)]
  rw [List.range_zero, List.map_nil]
  apply foldlM_greedyStep_nil_error
  intro hcon
  have hlc := congrArg List.length hcon
  rw [sortRowsDesc_length] at hlc
  split at hlc <;>
    simp only [List.length_map, List.length_zip, List.length_replicate,
      Nat.min_self, List.length_nil] at hlc <;>
    exact h (List.length_eq_zero.mp (by omega))

/-! Planner lemmas. -/

theorem build_distance_matrix_length (hav : Point → Point → ℚ) (pts : List Point) :
    (build_distance_matrix hav pts).length = pts.length := by
  simp [build_distance_matrix]

theorem planDepotInfo_ne_nil (df : List OrderRow) (drivers : Nat)
    (dd : Option (List DriverRow)) (depot : Option Point) :
    (planDepotInfo df drivers dd depot).1 ≠ [] := by
  rcases depot with _ | d
  · simp only [planDepotInfo]
    split
    · rename_i hpay
      intro hcon
      exact hpay (List.map_eq_nil.mp hcon)
    · simp
  · simp [planDepotInfo]

theorem computePreds_len_ok (ext : Ext) (uml pp : Bool) (df : List OrderRow)
    (hpred : ∀ os l, ext.predictEta os = Except.ok l → l.length = os.length) :
    computePreds ext uml pp df = none
      ∨ ∃ l, computePreds ext uml pp df = some l ∧ l.length = df.length := by
  simp only [computePreds]
  split
  · rcases heta : ext.predictEta df with e | l
    · right
      exact ⟨_, rfl, by simp⟩
    · right
      exact ⟨l, rfl, hpred df l heta⟩
  · left
    rfl

theorem ortools_vrp_error_of_solve_error (ext : Ext) (inp : VrpInput)
    (havail : ext.ortoolsAvailable = true) (hn : inp.dm.length ≠ 0)
    (hs : ∀ inp, ∃ e, ext.solve inp = Except.error e) :
    ∃ e, ortools_vrp ext.ortoolsAvailable ext.solve inp = Except.error e := by
  simp only [ortools_vrp, havail]
  rw [if_neg (by simp), if_neg hn]
  obtain ⟨e, he⟩ := hs inp
  rw [he]
  repeat' split
  all_goals first
    | exact ⟨_, rfl⟩
    | simp_all

theorem ortoolsPlan_error_of_solve_error (ext : Ext) (df : List OrderRow) (drivers : Nat)
    (dd : Option (List DriverRow)) (depot : Option Point) (sp : ℚ) (tl stm : ℤ)
    (havail : ext.ortoolsAvailable = true)
    (hs : ∀ inp, ∃ e, ext.solve inp = Except.error e) :
    ∃ e, ortoolsPlan ext df drivers dd depot none none sp tl stm = Except.error e := by
  have hdm : (buildVrpInput ext.hav df drivers dd depot none none sp tl stm).dm.length
      = (planDepotInfo df drivers dd depot).1.length + df.length := by
    show (build_distance_matrix ext.hav
      ((planDepotInfo df drivers dd depot).1 ++ df.map (fun o => (o.lat, o.lon)))).length = _
    rw [build_distance_matrix_length]
    simp
  have hdp := planDepotInfo_ne_nil df drivers dd depot
  obtain ⟨e, he⟩ := ortools_vrp_error_of_solve_error ext
    (buildVrpInput ext.hav df drivers dd depot none none sp tl stm) havail
    (by
      rw [hdm]
      intro hcon
      exact hdp (List.length_eq_zero.mp (by omega))) hs
  refine ⟨e, ?_⟩
  simp only [ortoolsPlan]
  rw [he]

theorem plan_routes_unavail (ext : Ext) (orders : List OrderRow)
    (drivers : Nat) (uml pp : Bool) (tl : ℤ) (sp : ℚ) (stm : ℤ)
    (dd : Option (List DriverRow)) (dm tm : Option Mat) (depot : Option Point)
    (h1 : orders ≠ []) (havail : ext.ortoolsAvailable = false) :
    plan_routes ext orders drivers "ortools" uml pp tl sp stm dd dm tm depot
      = (greedy_vrp (prepOrders ext.hav depot orders)
          (computePreds ext uml pp (prepOrders ext.hav depot orders)) drivers true).map
        (fun rs => ⟨rs, "greedy_fallback", (prepOrders ext.hav depot orders).length, none⟩) := by
  simp only [plan_routes, if_neg h1, havail]
  simp

theorem plan_routes_solveerr (ext : Ext) (orders : List OrderRow)
    (drivers : Nat) (uml pp : Bool) (tl : ℤ) (sp : ℚ) (stm : ℤ)
    (dd : Option (List DriverRow)) (depot : Option Point)
    (h1 : orders ≠ []) (havail : ext.ortoolsAvailable = true)
    (hs : ∀ inp, ∃ e, ext.solve inp = Except.error e) :
    plan_routes ext orders drivers "ortools" uml pp tl sp stm dd none none depot
      = (greedy_vrp (prepOrders ext.hav depot orders)
          (computePreds ext uml pp (prepOrders ext.hav depot orders)) drivers true).map
        (fun rs => ⟨rs, "greedy_fallback", (prepOrders ext.hav depot orders).length, none⟩) := by
  obtain ⟨e, he⟩ := ortoolsPlan_error_of_solve_error ext
    (prepOrders ext.hav depot orders) drivers dd depot sp tl stm havail hs
  simp only [plan_routes, if_neg h1, havail]
  simp only [he]
  simp

theorem pyToInt_intCast (k : ℤ) : pyToInt ((k : ℤ) : ℚ) = k := by
  simp only [pyToInt]
  split
  · exact Int.floor_intCast k
  · rw [show -((k : ℤ) : ℚ) = ((-k : ℤ) : ℚ) from by push_cast; ring]
    rw [Int.floor_intCast]
    ring

theorem build_time_matrix_trunc_id (dm : Mat) (s : ℚ) :
    (build_time_matrix dm s).map (fun row => row.map (fun x => ((pyToInt x : ℤ) : ℚ)))
      = build_time_matrix dm s := by
  simp only [build_time_matrix, List.map_map]
  refine List.map_congr_left ?_
  intro row _
  simp only [Function.comp, List.map_map]
  refine List.map_congr_left ?_
  intro x _
  simp only [Function.comp]
  rw [pyToInt_intCast]

theorem buildVrpInput_synth (hav : Point → Point → ℚ) (orders : List OrderRow)
    (drivers : Nat) (dd : Option (List DriverRow)) (depot : Option Point)
    (sp : ℚ) (tl stm : ℤ) :
    buildVrpInput hav (prepOrders hav depot orders) drivers dd depot none none sp tl stm
      = buildVrpInput hav (prepOrders hav depot orders) drivers dd depot
          (some (build_distance_matrix hav (planPoints hav orders drivers dd depot)))
          (some (build_time_matrix
            (build_distance_matrix hav (planPoints hav orders drivers dd depot)) sp))
          sp tl stm := by
  simp only [buildVrpInput, planPoints, Option.getD_none, Option.getD_some,
    Option.map_some', Option.map_none']
  rw [build_time_matrix_trunc_id]

theorem plan_routes_synth (ext : Ext) (orders : List OrderRow) (drivers : Nat)
    (uml pp : Bool) (tl : ℤ) (sp : ℚ) (stm : ℤ) (dd : Option (List DriverRow))
    (depot : Option Point) :
    plan_routes ext orders drivers "ortools" uml pp tl sp stm dd none none depot
      = plan_routes ext orders drivers "ortools" uml pp tl sp stm dd
          (some (build_distance_matrix ext.hav (planPoints ext.hav orders drivers dd depot)))
          (some (build_time_matrix
            (build_distance_matrix ext.hav (planPoints ext.hav orders drivers dd depot)) sp))
          depot := by
  simp only [plan_routes]
  by_cases h0 : orders = []
  · rw [if_pos h0, if_pos h0]
  · rw [if_neg h0, if_neg h0]
    have hop : ortoolsPlan ext (prepOrders ext.hav depot orders) drivers dd depot
        none none sp tl stm
        = ortoolsPlan ext (prepOrders ext.hav depot orders) drivers dd depot
          (some (build_distance_matrix ext.hav (planPoints ext.hav orders drivers dd depot)))
          (some (build_time_matrix
            (build_distance_matrix ext.hav (planPoints ext.hav orders drivers dd depot)) sp))
          sp tl stm := by
      simp only [ortoolsPlan]
      rw [buildVrpInput_synth]
    rw [hop]

/-- C1: for valid input (non-empty orders, at least one vehicle, a
length-honest predictor), the top-level `plan_routes` call in
`"ortools"` mode never raises when the OR-Tools library is unavailable
or the solver itself raises on every model: it returns the greedy
heuristic's assignment over the same prepared stop set, tagged
`"greedy_fallback"`. -/
theorem c1_solver_failure_falls_back_greedy (ext : Ext) (orders : List OrderRow)
    (drivers : Nat) (uml pp : Bool) (tl : ℤ) (sp : ℚ) (stm : ℤ)
    (dd : Option (List DriverRow)) (depot : Option Point)
    (h1 : orders ≠ []) (h2 : 0 < drivers)
    (hpred : ∀ os l, ext.predictEta os = Except.ok l → l.length = os.length)
    (hfail : ext.ortoolsAvailable = false
      ∨ (ext.ortoolsAvailable = true ∧ ∀ inp, ∃ e, ext.solve inp = Except.error e)) :
    ∃ rs, greedy_vrp (prepOrders ext.hav depot orders)
        (computePreds ext uml pp (prepOrders ext.hav depot orders)) drivers true
        = Except.ok rs
      ∧ plan_routes ext orders drivers "ortools" uml pp tl sp stm dd none none depot
        = Except.ok ⟨rs, "greedy_fallback", orders.length, none⟩ := by
  have hpl : (prepOrders ext.hav depot orders).length = orders.length :=
    prepOrders_length ext.hav depot orders
  obtain ⟨rs, hg, _⟩ := greedy_vrp_ok (prepOrders ext.hav depot orders)
    (computePreds ext uml pp (prepOrders ext.hav depot orders)) drivers true h2
    (computePreds_len_ok ext uml pp (prepOrders ext.hav depot orders) hpred)
  refine ⟨rs, hg, ?_⟩
  rcases hfail with havail | ⟨havail, hs⟩
  · rw [plan_routes_unavail ext orders drivers uml pp tl sp stm dd none none depot h1 havail,
      hg]
    show Except.ok (⟨rs, "greedy_fallback", (prepOrders ext.hav depot orders).length, none⟩
      : PlanResult) = _
    rw [hpl]
  · rw [plan_routes_solveerr ext orders drivers uml pp tl sp stm dd depot h1 havail hs, hg]
    show Except.ok (⟨rs, "greedy_fallback", (prepOrders ext.hav depot orders).length, none⟩
      : PlanResult) = _
    rw [hpl]

/-- Witness for C1: one order, one driver, OR-Tools unavailable — the
call returns the greedy assignment tagged `greedy_fallback`. -/
theorem c1_solver_failure_falls_back_greedy_witness :
    (([⟨1, 0, 0, some 1, none, none, none, none⟩] : List OrderRow) ≠ [])
    ∧ 0 < 1
    ∧ (∃ rs, greedy_vrp (prepOrders (Ext.hav ⟨fun _ _ => 0, fun _ _ => 0, false,
            fun _ => Except.error "na", true, fun _ _ _ => [],
            fun _ => Except.error "osrm down", fun _ => Except.error "ml down"⟩) none
          [⟨1, 0, 0, some 1, none, none, none, none⟩])
          (computePreds ⟨fun _ _ => 0, fun _ _ => 0, false, fun _ => Except.error "na", true,
            fun _ _ _ => [], fun _ => Except.error "osrm down", fun _ => Except.error "ml down"⟩
            false false (prepOrders (Ext.hav ⟨fun _ _ => 0, fun _ _ => 0, false,
              fun _ => Except.error "na", true, fun _ _ _ => [],
              fun _ => Except.error "osrm down", fun _ => Except.error "ml down"⟩) none
            [⟨1, 0, 0, some 1, none, none, none, none⟩])) 1 true
          = Except.ok rs
        ∧ plan_routes ⟨fun _ _ => 0, fun _ _ => 0, false, fun _ => Except.error "na", true,
            fun _ _ _ => [], fun _ => Except.error "osrm down", fun _ => Except.error "ml down"⟩
          [⟨1, 0, 0, some 1, none, none, none, none⟩] 1 "ortools" false false 10 30 5
          none none none none
          = Except.ok ⟨rs, "greedy_fallback", 1, none⟩) :=
  ⟨by decide, by decide,
    c1_solver_failure_falls_back_greedy
      ⟨fun _ _ => 0, fun _ _ => 0, false, fun _ => Except.error "na", true, fun _ _ _ => [],
        fun _ => Except.error "osrm down", fun _ => Except.error "ml down"⟩
      [⟨1, 0, 0, some 1, none, none, none, none⟩] 1 false false 10 30 5 none none
      (by decide) (by decide)
      (fun os l h => by exact absurd h (by simp))
      (Or.inl rfl)⟩

theorem routeOrderRows_demand_sum (df : List OrderRow) (dc : Nat) (nodes : List Nat) :
    ((routeOrderRows df dc nodes).map (fun o => demandOf o.weight)).sum
      = (nodes.map (fun nd =>
          (List.replicate dc (0 : ℤ) ++ df.map (fun o => demandOf o.weight)).getD nd 0)).sum := by
  induction nodes with
  | nil => rfl
  | cons nd nds ih =>
      simp only [routeOrderRows] at ih ⊢
      have hmapc : ((nd :: nds).map (fun nd =>
          (List.replicate dc (0 : ℤ) ++ df.map (fun o => demandOf o.weight)).getD nd 0)).sum
          = (List.replicate dc (0 : ℤ) ++ df.map (fun o => demandOf o.weight)).getD nd 0
            + (nds.map (fun nd =>
              (List.replicate dc (0 : ℤ) ++ df.map (fun o => demandOf o.weight)).getD nd
                0)).sum := by
        rw [List.map_cons, List.sum_cons]
      rw [hmapc]
      by_cases h1 : nd < dc
      · rw [@List.filterMap_cons_none ℕ OrderRow
            (fun idx => if idx < dc then none else df.get? (idx - dc)) nd nds (if_pos h1)]
        have hz : (List.replicate dc (0 : ℤ) ++ df.map (fun o => demandOf o.weight)).getD nd 0
            = 0 := by
          rw [List.getD_append _ _ _ _ (by simpa using h1)]
          simp [List.getD]
        rw [ih, hz]
        omega
      · have hget : (List.replicate dc (0 : ℤ) ++ df.map (fun o => demandOf o.weight)).getD nd 0
            = ((df.get? (nd - dc)).map (fun o => demandOf o.weight)).getD 0 := by
          rw [List.getD_append_right _ _ _ _ (by simpa using not_lt.mp h1)]
          simp only [List.length_replicate]
          rw [List.getD_eq_getElem?_getD, List.getElem?_map]
          rw [List.get?_eq_getElem?]
        rcases hg : df.get? (nd - dc) with _ | o
        · rw [@List.filterMap_cons_none ℕ OrderRow
              (fun idx => if idx < dc then none else df.get? (idx - dc)) nd nds
              ((if_neg h1).trans hg)]
          rw [ih, hget, hg]
          simp
        · rw [@List.filterMap_cons_some ℕ OrderRow
              (fun idx => if idx < dc then none else df.get? (idx - dc)) nd nds o
              ((if_neg h1).trans hg)]
          rw [List.map_cons, List.sum_cons, ih, hget, hg]
          simp

theorem buildVrpInput_service_ne_nil (hav : Point → Point → ℚ) (df : List OrderRow)
    (drivers : Nat) (dd : Option (List DriverRow)) (depot : Option Point)
    (dmOpt tmOpt : Option Mat) (sp : ℚ) (tl stm : ℤ) :
    (buildVrpInput hav df drivers dd depot dmOpt tmOpt sp tl stm).service_times_min ≠ [] := by
  show List.replicate (planDepotInfo df drivers dd depot).1.length 0
      ++ df.map (fun o => o.service_time_min.getD stm) ≠ []
  intro hcon
  have h1 := planDepotInfo_ne_nil df drivers dd depot
  have h2 := congrArg List.length hcon
  simp at h2
  exact h1 h2.1

theorem ortools_vrp_ok_of_build (ext : Ext) (df : List OrderRow) (drivers : Nat)
    (dd : Option (List DriverRow)) (depot : Option Point) (sp : ℚ) (tl stm : ℤ)
    (sol : VrpSolution) (havail : ext.ortoolsAvailable = true)
    (hsolve : ext.solve (buildVrpInput ext.hav df drivers dd depot none none sp tl stm)
      = Except.ok (some sol)) :
    ortools_vrp ext.ortoolsAvailable ext.solve
        (buildVrpInput ext.hav df drivers dd depot none none sp tl stm)
      = Except.ok
          ⟨sol.vroutes,
            sol.vroutes.map (fun nodes =>
              routeDistKm (buildVrpInput ext.hav df drivers dd depot none none sp tl stm).dm
                nodes),
            sol.vroutes.map (fun nodes =>
              routeDurMin (buildVrpInput ext.hav df drivers dd depot none none sp tl stm).tm
                (buildVrpInput ext.hav df drivers dd depot none none sp tl stm).service_times_min
                nodes),
            (List.range
              (buildVrpInput ext.hav df drivers dd depot none none sp tl stm).dm.length).filter
              (fun node =>
                !((buildVrpInput ext.hav df drivers dd depot none none sp tl
                    stm).starts.contains node)
                && !((buildVrpInput ext.hav df drivers dd depot none none sp tl
                    stm).ends.contains node)
                && sol.dropped.contains node)⟩ := by
  have hdp := planDepotInfo_ne_nil df drivers dd depot
  have hdc : 0 < (planDepotInfo df drivers dd depot).1.length :=
    List.length_pos.mpr hdp
  have hdm : (buildVrpInput ext.hav df drivers dd depot none none sp tl stm).dm.length
      = (planDepotInfo df drivers dd depot).1.length + df.length := by
    show (build_distance_matrix ext.hav
      ((planDepotInfo df drivers dd depot).1 ++ df.map (fun o => (o.lat, o.lon)))).length = _
    rw [build_distance_matrix_length]
    simp
  have hsvc : (buildVrpInput ext.hav df drivers dd depot none none sp tl
      stm).service_times_min.length
      = (planDepotInfo df drivers dd depot).1.length + df.length := by
    show (List.replicate (planDepotInfo df drivers dd depot).1.length (0 : ℤ)
      ++ df.map (fun o => o.service_time_min.getD stm)).length = _
    simp
  have hdem : (buildVrpInput ext.hav df drivers dd depot none none sp tl stm).demands.length
      = (planDepotInfo df drivers dd depot).1.length + df.length := by
    rw [buildVrpInput_demands]
    simp
  have htw : (buildVrpInput ext.hav df drivers dd depot none none sp tl
      stm).time_windows.length
      = (planDepotInfo df drivers dd depot).1.length + df.length := by
    simp only [buildVrpInput]
    simp
  have hstarts : (buildVrpInput ext.hav df drivers dd depot none none sp tl
      stm).starts.length
      = (buildVrpInput ext.hav df drivers dd depot none none sp tl stm).num_vehicles := by
    rcases depot with _ | d
    · simp only [buildVrpInput, planDepotInfo]
      split
      · rename_i hpay
        simp
      · simp
    · simp [buildVrpInput, planDepotInfo]
  have hends : (buildVrpInput ext.hav df drivers dd depot none none sp tl stm).ends.length
      = (buildVrpInput ext.hav df drivers dd depot none none sp tl stm).num_vehicles := by
    rcases depot with _ | d
    · simp only [buildVrpInput, planDepotInfo]
      split
      · rename_i hpay
        simp
      · simp
    · simp [buildVrpInput, planDepotInfo]
  have hcaplen : (buildVrpInput ext.hav df drivers dd depot none none sp tl
      stm).capacities.length
      = (buildVrpInput ext.hav df drivers dd depot none none sp tl stm).num_vehicles := by
    rcases depot with _ | d
    · simp only [buildVrpInput, planDepotInfo]
      split
      · rename_i hpay
        simp
      · simp
    · simp only [buildVrpInput, planDepotInfo]
      split
      · rename_i hpay
        simp
      · simp
  simp only [ortools_vrp, havail]
  rw [if_neg (by simp)]
  rw [if_neg (by
    rw [hdm]
    omega)]
  rw [if_neg (buildVrpInput_service_ne_nil ext.hav df drivers dd depot none none sp tl stm)]
  rw [if_neg (by
    rw [hsvc, hdm]
    simp)]
  rw [if_neg (by
    rw [hstarts, hends]
    simp)]
  rw [if_neg (by
    rw [not_and_or, not_and_or]
    right
    right
    rw [hdem, hdm]
    simp)]
  rw [if_neg (by
    rw [not_and_or, not_and_or]
    right
    right
    rw [hcaplen]
    simp)]
  rw [if_neg (by
    rw [not_and_or]
    right
    rw [htw, hdm]
    simp)]
  rw [hsolve]

theorem ortoolsPlan_ok (ext : Ext) (df : List OrderRow) (drivers : Nat)
    (dd : Option (List DriverRow)) (depot : Option Point) (dmOpt tmOpt : Option Mat)
    (sp : ℚ) (tl stm : ℤ) (raw : RawResult)
    (h : ortools_vrp ext.ortoolsAvailable ext.solve
        (buildVrpInput ext.hav df drivers dd depot dmOpt tmOpt sp tl stm) = Except.ok raw) :
    ortoolsPlan ext df drivers dd depot dmOpt tmOpt sp tl stm
      = Except.ok
          ⟨raw.routes.enum.map (fun p =>
            ({ id := p.1
               route := (routeOrderRows df (planDepotInfo df drivers dd depot).1.length
                 p.2).map (fun o => o.order_id)
               load := raw.route_dist_km.getD p.1 0
               duration_min := some (raw.route_dur_min.getD p.1 0) } : ROut)),
           "ortools", df.length,
           some (raw.unassigned.filterMap (fun node =>
             if (planDepotInfo df drivers dd depot).1.length ≤ node then
               (df.get? (node - (planDepotInfo df drivers dd depot).1.length)).map
                 (fun o => o.order_id)
             else none))⟩ := by
  simp only [ortoolsPlan]
  rw [h]

theorem enum_map_get_shape {α β : Type} (l : List α) (F : Nat × α → β) (i : Nat) (b : β)
    (h : (l.enum.map F).get? i = some b) :
    ∃ a, l.get? i = some a ∧ b = F (i, a) := by
  rw [List.get?_map, List.get?_enum] at h
  rcases hg : l.get? i with _ | a
  · rw [hg] at h
    simp at h
  · rw [hg] at h
    simp only [Option.map_some'] at h
    exact ⟨a, rfl, (Option.some.inj h).symm⟩

/-- C2 counterexample: with the constrained solver unavailable, the
greedy fallback path of `plan_routes` ignores the capacity dimension
entirely. One driver whose payload declares capacity 5 (registered as
`capacities = [5]` by the model builder) receives all three stops of
weight 3 on its single returned route, total demand 9 > 5, and the
result's unassigned set is absent rather than holding the overflow. -/
theorem c2_counterexample :
    ((plan_routes
        ⟨fun _ _ => 0, fun _ _ => 0, false, fun _ => Except.error "e", false,
          fun _ _ _ => [], fun _ => Except.error "e", fun _ => Except.error "e"⟩
        [⟨1, 0, 0, some 1, some 3, none, none, none⟩,
          ⟨2, 0, 0, some 2, some 3, none, none, none⟩,
          ⟨3, 0, 0, some 3, some 3, none, none, none⟩]
        1 "ortools" false false 30 40 5
        (some [⟨7, some 0, some 0, some 5, none⟩]) none none none).map
      (fun res => (res.method, res.routes.map (fun r => (r.id, r.route)), res.unassigned))
      = Except.ok ("greedy_fallback", [(0, [3, 2, 1])], none))
    ∧ (buildVrpInput (fun _ _ => 0)
        [⟨1, 0, 0, some 1, some 3, none, none, none⟩,
          ⟨2, 0, 0, some 2, some 3, none, none, none⟩,
          ⟨3, 0, 0, some 3, some 3, none, none, none⟩]
        1 (some [⟨7, some 0, some 0, some 5, none⟩]) none none none 40 30 5).capacities
        = [5]
    ∧ (buildVrpInput (fun _ _ => 0)
        [⟨1, 0, 0, some 1, some 3, none, none, none⟩,
          ⟨2, 0, 0, some 2, some 3, none, none, none⟩,
          ⟨3, 0, 0, some 3, some 3, none, none, none⟩]
        1 (some [⟨7, some 0, some 0, some 5, none⟩]) none none none 40 30 5).demands
        = [0, 3, 3, 3]
    ∧ (([⟨1, 0, 0, some 1, some 3, none, none, none⟩,
          ⟨2, 0, 0, some 2, some 3, none, none, none⟩,
          ⟨3, 0, 0, some 3, some 3, none, none, none⟩] : List OrderRow).map
        (fun o => demandOf o.weight)).sum = 9
    ∧ ¬ ((9 : ℤ) ≤ 5) := by
  with_unfolding_all decide

/-- C2 (amended): the capacity bound holds only on the constrained
solver path. When `plan_routes("ortools")` succeeds with a solver
solution that respects the model (node demands summed per vehicle walk
at most that vehicle's registered capacity — the contract the source's
`AddDimensionWithVehicleCapacity` enforces), every returned route's
stops have total demand at most the route's vehicle capacity, and
every stop the solver dropped appears in the result's unassigned set
(the result extraction maps each dropped non-depot node back to its
order id); the greedy fallback path carries no such guarantee (see the
counterexample). -/
theorem buildVrpInput_starts_lt (hav : Point → Point → ℚ) (df : List OrderRow)
    (drivers : Nat) (dd : Option (List DriverRow)) (depot : Option Point)
    (dmOpt tmOpt : Option Mat) (sp : ℚ) (tl stm : ℤ) :
    ∀ x ∈ (buildVrpInput hav df drivers dd depot dmOpt tmOpt sp tl stm).starts,
      x < (planDepotInfo df drivers dd depot).1.length := by
  intro x hx
  have hdc : 0 < (planDepotInfo df drivers dd depot).1.length :=
    List.length_pos.mpr (planDepotInfo_ne_nil df drivers dd depot)
  rcases depot with _ | d
  · simp only [buildVrpInput] at hx
    split at hx
    · rw [List.mem_range] at hx
      exact hx
    · rw [List.mem_replicate] at hx
      obtain ⟨-, rfl⟩ := hx
      exact hdc
  · simp only [buildVrpInput] at hx
    rw [List.mem_replicate] at hx
    obtain ⟨-, rfl⟩ := hx
    exact hdc

theorem buildVrpInput_ends_lt (hav : Point → Point → ℚ) (df : List OrderRow)
    (drivers : Nat) (dd : Option (List DriverRow)) (depot : Option Point)
    (dmOpt tmOpt : Option Mat) (sp : ℚ) (tl stm : ℤ) :
    ∀ x ∈ (buildVrpInput hav df drivers dd depot dmOpt tmOpt sp tl stm).ends,
      x < (planDepotInfo df drivers dd depot).1.length := by
  intro x hx
  have hdc : 0 < (planDepotInfo df drivers dd depot).1.length :=
    List.length_pos.mpr (planDepotInfo_ne_nil df drivers dd depot)
  rcases depot with _ | d
  · simp only [buildVrpInput] at hx
    split at hx
    · rw [List.mem_range] at hx
      exact hx
    · rw [List.mem_replicate] at hx
      obtain ⟨-, rfl⟩ := hx
      exact hdc
  · simp only [buildVrpInput] at hx
    rw [List.mem_replicate] at hx
    obtain ⟨-, rfl⟩ := hx
    exact hdc

theorem c2_ortools_routes_respect_capacity (ext : Ext) (orders : List OrderRow)
    (drivers : Nat) (uml pp : Bool) (tl : ℤ) (sp : ℚ) (stm : ℤ)
    (dd : Option (List DriverRow)) (depot : Option Point) (sol : VrpSolution)
    (horders : orders ≠ [])
    (havail : ext.ortoolsAvailable = true)
    (hsolve : ext.solve (buildVrpInput ext.hav (prepOrders ext.hav depot orders) drivers dd
        depot none none sp tl stm) = Except.ok (some sol))
    (hfeas : ∀ i nodes, sol.vroutes.get? i = some nodes →
      (nodes.map (fun nd =>
        (buildVrpInput ext.hav (prepOrders ext.hav depot orders) drivers dd depot none none
          sp tl stm).demands.getD nd 0)).sum
        ≤ (buildVrpInput ext.hav (prepOrders ext.hav depot orders) drivers dd depot none none
            sp tl stm).capacities.getD i 0) :
    ∃ res : PlanResult,
      plan_routes ext orders drivers "ortools" uml pp tl sp stm dd none none depot
        = Except.ok res
      ∧ res.method = "ortools"
      ∧ res.routes.length = sol.vroutes.length
      ∧ (∀ i r, res.routes.get? i = some r →
          ∃ nodes, sol.vroutes.get? i = some nodes
            ∧ r.route = (routeOrderRows (prepOrders ext.hav depot orders)
                (planDepotInfo (prepOrders ext.hav depot orders) drivers dd depot).1.length
                nodes).map (fun o => o.order_id)
            ∧ ((routeOrderRows (prepOrders ext.hav depot orders)
                (planDepotInfo (prepOrders ext.hav depot orders) drivers dd depot).1.length
                nodes).map (fun o => demandOf o.weight)).sum
              ≤ (buildVrpInput ext.hav (prepOrders ext.hav depot orders) drivers dd depot
                  none none sp tl stm).capacities.getD i 0)
      ∧ ∃ un, res.unassigned = some un
          ∧ ∀ node o, sol.dropped.contains node = true →
              (planDepotInfo (prepOrders ext.hav depot orders) drivers dd depot).1.length
                ≤ node →
              (prepOrders ext.hav depot orders).get?
                  (node - (planDepotInfo (prepOrders ext.hav depot orders) drivers dd
                    depot).1.length)
                = some o →
              o.order_id ∈ un := by
  have hov := ortools_vrp_ok_of_build ext (prepOrders ext.hav depot orders) drivers dd depot
    sp tl stm sol havail hsolve
  have hpr := ortoolsPlan_ok ext (prepOrders ext.hav depot orders) drivers dd depot
    none none sp tl stm _ hov
  have hfinal : plan_routes ext orders drivers "ortools" uml pp tl sp stm dd none none depot
      = ortoolsPlan ext (prepOrders ext.hav depot orders) drivers dd depot none none
          sp tl stm := by
    simp only [plan_routes, if_neg horders, havail]
    rw [hpr]
    simp
  refine ⟨_, hfinal.trans hpr, rfl, by simp, ?_, ?_⟩
  · intro i r hr
    obtain ⟨nodes, hnd, hre⟩ := enum_map_get_shape sol.vroutes _ i r hr
    refine ⟨nodes, hnd, ?_, ?_⟩
    · rw [hre]
    · have h1 := routeOrderRows_demand_sum (prepOrders ext.hav depot orders)
        (planDepotInfo (prepOrders ext.hav depot orders) drivers dd depot).1.length nodes
      have h2 := hfeas i nodes hnd
      rw [buildVrpInput_demands] at h2
      rw [h1]
      exact h2
  · refine ⟨_, rfl, ?_⟩
    intro node o hdrop hge hget
    have hdm2 : (buildVrpInput ext.hav (prepOrders ext.hav depot orders) drivers dd depot
        none none sp tl stm).dm.length
        = (planDepotInfo (prepOrders ext.hav depot orders) drivers dd depot).1.length
          + (prepOrders ext.hav depot orders).length := by
      show (build_distance_matrix ext.hav
        ((planDepotInfo (prepOrders ext.hav depot orders) drivers dd depot).1
          ++ (prepOrders ext.hav depot orders).map (fun o => (o.lat, o.lon)))).length = _
      rw [build_distance_matrix_length]
      simp
    have hidx : node - (planDepotInfo (prepOrders ext.hav depot orders) drivers dd
        depot).1.length < (prepOrders ext.hav depot orders).length := by
      by_contra hc
      rw [List.get?_eq_none.mpr (by omega)] at hget
      exact Option.noConfusion hget
    have hst : (buildVrpInput ext.hav (prepOrders ext.hav depot orders) drivers dd depot
        none none sp tl stm).starts.contains node = false := by
      rw [Bool.eq_false_iff]
      intro hc
      have hm := List.elem_iff.mp hc
      have hlt := buildVrpInput_starts_lt ext.hav (prepOrders ext.hav depot orders) drivers
        dd depot none none sp tl stm node hm
      omega
    have hend : (buildVrpInput ext.hav (prepOrders ext.hav depot orders) drivers dd depot
        none none sp tl stm).ends.contains node = false := by
      rw [Bool.eq_false_iff]
      intro hc
      have hm := List.elem_iff.mp hc
      have hlt := buildVrpInput_ends_lt ext.hav (prepOrders ext.hav depot orders) drivers
        dd depot none none sp tl stm node hm
      omega
    rw [List.mem_filterMap]
    refine ⟨node, ?_, ?_⟩
    · refine List.mem_filter.mpr ⟨List.mem_range.mpr ?_, ?_⟩
      · rw [hdm2]
        omega
      · show (!((buildVrpInput ext.hav (prepOrders ext.hav depot orders) drivers dd depot
              none none sp tl stm).starts.contains node)
            && !((buildVrpInput ext.hav (prepOrders ext.hav depot orders) drivers dd depot
              none none sp tl stm).ends.contains node)
            && sol.dropped.contains node) = true
        rw [hst, hend, hdrop]
        rfl
    · show (if (planDepotInfo (prepOrders ext.hav depot orders) drivers dd
            depot).1.length ≤ node then
          ((prepOrders ext.hav depot orders).get?
            (node - (planDepotInfo (prepOrders ext.hav depot orders) drivers dd
              depot).1.length)).map (fun o => o.order_id)
        else none) = some o.order_id
      rw [if_pos hge, hget]
      rfl

/-- C2 witness: one stop of weight 3, one driver with declared
capacity 5, a solver that returns the single walk `[0, 1, 0]`; the
model-feasibility hypothesis holds (demand 3 ≤ capacity 5) and the
returned route satisfies the capacity bound. -/
theorem c2_ortools_routes_respect_capacity_witness :
    ∃ res : PlanResult,
      plan_routes
        ⟨fun _ _ => 0, fun _ _ => 0, true, fun _ => Except.ok (some ⟨[[0, 1, 0]], []⟩), false,
          fun _ _ _ => [], fun _ => Except.error "e", fun _ => Except.error "e"⟩
        [⟨1, 0, 0, some 1, some 3, none, none, none⟩] 1 "ortools" false false 30 40 5
        (some [⟨7, some 0, some 0, some 5, none⟩]) none none none
        = Except.ok res
      ∧ res.method = "ortools"
      ∧ res.routes.length = 1
      ∧ ∀ i r, res.routes.get? i = some r →
          ∃ nodes, ([[0, 1, 0]] : List (List Nat)).get? i = some nodes
            ∧ r.route = (routeOrderRows
                (prepOrders (fun _ _ => 0) none
                  [⟨1, 0, 0, some 1, some 3, none, none, none⟩])
                (planDepotInfo
                  (prepOrders (fun _ _ => 0) none
                    [⟨1, 0, 0, some 1, some 3, none, none, none⟩])
                  1 (some [⟨7, some 0, some 0, some 5, none⟩]) none).1.length
                nodes).map (fun o => o.order_id)
            ∧ ((routeOrderRows
                (prepOrders (fun _ _ => 0) none
                  [⟨1, 0, 0, some 1, some 3, none, none, none⟩])
                (planDepotInfo
                  (prepOrders (fun _ _ => 0) none
                    [⟨1, 0, 0, some 1, some 3, none, none, none⟩])
                  1 (some [⟨7, some 0, some 0, some 5, none⟩]) none).1.length
                nodes).map (fun o => demandOf o.weight)).sum
              ≤ (buildVrpInput (fun _ _ => 0)
                  (prepOrders (fun _ _ => 0) none
                    [⟨1, 0, 0, some 1, some 3, none, none, none⟩])
                  1 (some [⟨7, some 0, some 0, some 5, none⟩]) none none none
                  40 30 5).capacities.getD i 0 :=
  Exists.elim
    (c2_ortools_routes_respect_capacity
      ⟨fun _ _ => 0, fun _ _ => 0, true, fun _ => Except.ok (some ⟨[[0, 1, 0]], []⟩), false,
        fun _ _ _ => [], fun _ => Except.error "e", fun _ => Except.error "e"⟩
      [⟨1, 0, 0, some 1, some 3, none, none, none⟩] 1 false false 30 40 5
      (some [⟨7, some 0, some 0, some 5, none⟩]) none ⟨[[0, 1, 0]], []⟩
      (by simp) rfl rfl
      (by
        intro i nodes h
        rcases i with _ | n
        · injection h with h2
          subst h2
          with_unfolding_all decide
        · exact Option.noConfusion h))
    (fun res h => ⟨res, h.1, h.2.1, h.2.2.1, h.2.2.2.1⟩)

/-- C5: when the OSRM matrix call fails (timeout, non-200, malformed
payload — all `Except.error` outcomes of the embedded
`get_osrm_table`, which also raises locally above the point ceiling),
`_solve_single` with the haversine fallback flag DISABLED propagates
exactly that failure, and with the flag ENABLED proceeds to
`plan_routes` without matrices — which is the same call as one run on
the synthesized matrices: the pairwise haversine distance matrix over
the model's node list and the speed-derived time matrix. -/
theorem c5_osrm_failure_fallback_or_propagate (ext : Ext) (st : Settings)
    (orders : List OrderRow) (drivers : Nat) (uml : Bool) (dd : Option (List DriverRow))
    (sp : ℚ) (tl : ℤ) (wh : Option Point) (e : String)
    (hfail : get_osrm_table ext st (build_points orders dd wh) = Except.error e) :
    (st.OSRM_FALLBACK_HAVERSINE = false →
      solve_single ext st orders drivers "ortools" uml dd sp tl true wh = Except.error e)
    ∧ (st.OSRM_FALLBACK_HAVERSINE = true →
      solve_single ext st orders drivers "ortools" uml dd sp tl true wh
        = plan_routes ext orders drivers "ortools" uml uml tl sp 5 dd none none wh
      ∧ plan_routes ext orders drivers "ortools" uml uml tl sp 5 dd none none wh
        = plan_routes ext orders drivers "ortools" uml uml tl sp 5 dd
            (some (build_distance_matrix ext.hav (planPoints ext.hav orders drivers dd wh)))
            (some (build_time_matrix
              (build_distance_matrix ext.hav (planPoints ext.hav orders drivers dd wh)) sp))
            wh) := by
  constructor
  · intro hflag
    simp only [solve_single, hfail, hflag]
    simp
  · intro hflag
    refine ⟨?_, plan_routes_synth ext orders drivers uml uml tl sp 5 dd wh⟩
    simp only [solve_single, hfail, hflag]
    simp

/-- Witness for C5: one order, the point ceiling set to 0 so the OSRM
call fails locally, fallback disabled — the same error propagates. -/
theorem c5_osrm_failure_fallback_or_propagate_witness :
    get_osrm_table
      ⟨fun _ _ => 0, fun _ _ => 0, false, fun _ => Except.error "na", true, fun _ _ _ => [],
        fun _ => Except.error "osrm down", fun _ => Except.error "ml down"⟩
      ⟨0, false, 30, 10⟩
      (build_points [⟨1, 0, 0, some 1, none, none, none, none⟩] none none)
      = Except.error "OSRM max points exceeded"
    ∧ ((⟨0, false, 30, 10⟩ : Settings).OSRM_FALLBACK_HAVERSINE = false →
        solve_single
          ⟨fun _ _ => 0, fun _ _ => 0, false, fun _ => Except.error "na", true, fun _ _ _ => [],
            fun _ => Except.error "osrm down", fun _ => Except.error "ml down"⟩
          ⟨0, false, 30, 10⟩ [⟨1, 0, 0, some 1, none, none, none, none⟩] 3 "ortools" true
          none 30 10 true none
          = Except.error "OSRM max points exceeded") := by
  refine ⟨by decide, ?_⟩
  exact (c5_osrm_failure_fallback_or_propagate
    ⟨fun _ _ => 0, fun _ _ => 0, false, fun _ => Except.error "na", true, fun _ _ _ => [],
      fun _ => Except.error "osrm down", fun _ => Except.error "ml down"⟩
    ⟨0, false, 30, 10⟩ [⟨1, 0, 0, some 1, none, none, none, none⟩] 3 true none 30 10 none
    "OSRM max points exceeded" (by decide)).1

/-- Counterexample for C3: for the empty input order list,
`cluster_orders` returns a single cluster containing the empty list
(the source's `len(orders) < min_samples` branch returns
`{0: orders}`), so one output cluster is empty, contradicting the
claim's "no output cluster is empty" for every input list. -/
theorem c3_counterexample :
    cluster_orders
      ⟨fun _ _ => 0, fun _ _ => 0, false, fun _ => Except.error "na", true,
        fun _ _ _ => [], fun _ => Except.error "osrm down", fun _ => Except.error "ml down"⟩
      [] 2 2
      = [(0, ([] : List OrderRow))]
    ∧ ∃ c ∈ cluster_orders
        ⟨fun _ _ => 0, fun _ _ => 0, false, fun _ => Except.error "na", true,
          fun _ _ _ => [], fun _ => Except.error "osrm down", fun _ => Except.error "ml down"⟩
        [] 2 2, c.2 = [] := by
  exact ⟨rfl, (0, []), by simp [cluster_orders], rfl⟩

/-- C3, amended: for every NON-EMPTY input order list (and under the
DBSCAN contract that the labelling has one label per input point),
`cluster_orders` returns a complete partition: the multiset union of
the output clusters is exactly the input, no output cluster is empty,
and when the density grouping produced at least one non-noise label,
no noise cluster (key -1) survives in the output. Moreover every noise
stop is merged into the NEAREST dense cluster by centroid distance:
the cluster key chosen for it is the first minimum of the quick
haversine distance from the stop to the fixed pre-merge centroids, its
centroid's distance is at most every centroid's distance, and the stop
ends up in the output cluster with that key. On the empty input the
code instead returns one empty cluster (see the counterexample). -/
theorem c3_amended (ext : Ext) (orders : List OrderRow) (eps : ℚ) (ms : Nat)
    (h : orders ≠ [])
    (hlab : (ext.dbscanLabels eps ms (orders.map (fun o => (o.lat, o.lon)))).length
      = orders.length) :
    (((cluster_orders ext orders eps ms).map (fun c => c.2)).join).Perm orders
    ∧ (∀ c ∈ cluster_orders ext orders eps ms, c.2 ≠ [])
    ∧ ((∃ l ∈ ext.dbscanLabels eps ms (orders.map (fun o => (o.lat, o.lon))), l ≠ -1) →
        ∀ c ∈ cluster_orders ext orders eps ms, c.1 ≠ -1)
    ∧ (ext.sklearnAvailable = true → ms ≤ orders.length →
        ∀ o ∈ (((groupByLabel (orders.zip (ext.dbscanLabels eps ms
            (orders.map (fun o => (o.lat, o.lon)))))).find? (fun c => c.1 = -1)).map
              (fun c => c.2)).getD [],
          (∃ l ∈ ext.dbscanLabels eps ms (orders.map (fun o => (o.lat, o.lon))), l ≠ -1) →
          ∃ i k cen,
            pyArgmin (fun c => ext.hq (o.lat, o.lon) c.2)
                (((groupByLabel (orders.zip (ext.dbscanLabels eps ms
                  (orders.map (fun o => (o.lat, o.lon)))))).filter
                    (fun c => ¬ (c.1 = -1))).map (fun c =>
                  (c.1, ((meanQ (c.2.map (fun o => o.lat)),
                    meanQ (c.2.map (fun o => o.lon))) : Point))))
              = some (i, (k, cen))
            ∧ (∀ c ∈ (((groupByLabel (orders.zip (ext.dbscanLabels eps ms
                  (orders.map (fun o => (o.lat, o.lon)))))).filter
                    (fun c => ¬ (c.1 = -1))).map (fun c =>
                  (c.1, ((meanQ (c.2.map (fun o => o.lat)),
                    meanQ (c.2.map (fun o => o.lon))) : Point)))),
                ext.hq (o.lat, o.lon) cen ≤ ext.hq (o.lat, o.lon) c.2)
            ∧ ∃ c ∈ cluster_orders ext orders eps ms, c.1 = k ∧ o ∈ c.2) := by
  by_cases h0 : ¬ ext.sklearnAvailable ∨ orders.length < ms
  · rw [show cluster_orders ext orders eps ms = [(0, orders)] from by
      simp only [cluster_orders]; rw [if_pos h0]]
    refine ⟨by simp, ?_, ?_, ?_⟩
    · intro c hc
      rw [List.mem_singleton] at hc
      rw [hc]
      exact h
    · intro _ c hc
      rw [List.mem_singleton] at hc
      rw [hc]
      simp
    · intro hsk hms
      rcases h0 with h0 | h0
      · exact absurd hsk h0
      · exact absurd hms (by omega)
  · have hcl : cluster_orders ext orders eps ms =
        (if (groupByLabel (orders.zip (ext.dbscanLabels eps ms
              (orders.map (fun o => (o.lat, o.lon)))))).any (fun c => c.1 = -1)
            && decide (0 < (((ext.dbscanLabels eps ms
              (orders.map (fun o => (o.lat, o.lon)))).dedup.filter
                (fun l => l ≠ -1)).length)) then
          ((((groupByLabel (orders.zip (ext.dbscanLabels eps ms
              (orders.map (fun o => (o.lat, o.lon)))))).find?
                (fun c => c.1 = -1)).map (fun c => c.2)).getD []).foldl
            (fun cs o =>
              appendToCluster cs
                (((pyArgmin (fun c => ext.hq (o.lat, o.lon) c.2)
                    (((groupByLabel (orders.zip (ext.dbscanLabels eps ms
                      (orders.map (fun o => (o.lat, o.lon)))))).filter
                        (fun c => ¬ (c.1 = -1))).map (fun c =>
                      (c.1, ((meanQ (c.2.map (fun o => o.lat)),
                        meanQ (c.2.map (fun o => o.lon))) : Point))))).map
                  (fun p => p.2.1)).getD 0) o)
            ((groupByLabel (orders.zip (ext.dbscanLabels eps ms
              (orders.map (fun o => (o.lat, o.lon)))))).filter (fun c => ¬ (c.1 = -1)))
        else groupByLabel (orders.zip (ext.dbscanLabels eps ms
          (orders.map (fun o => (o.lat, o.lon)))))) := by
      simp only [cluster_orders]
      rw [if_neg h0]
    set labels := ext.dbscanLabels eps ms (orders.map (fun o => (o.lat, o.lon))) with hlabels
    set clusters := groupByLabel (orders.zip labels) with hclusters
    have hperm0 : ((clusters.map (fun c => c.2)).join).Perm orders := by
      refine (groupByLabel_join_perm _).trans ?_
      rw [List.map_fst_zip orders labels (by rw [hlab])]
    have hnd : (clusters.map (fun c => c.1)).Nodup := groupByLabel_keys_nodup _
    have hnenil : ∀ c ∈ clusters, c.2 ≠ [] := groupByLabel_ne_nil _
    have hposlab : (∃ l ∈ labels, l ≠ -1) →
        0 < ((labels.dedup.filter (fun l => l ≠ -1)).length) := by
      rintro ⟨l, hl, hlne⟩
      have hmem : l ∈ labels.dedup.filter (fun l => l ≠ -1) :=
        List.mem_filter.mpr ⟨List.mem_dedup.mpr hl, by simpa using hlne⟩
      exact List.length_pos.mpr (List.ne_nil_of_mem hmem)
    rw [hcl]
    split
    · rename_i hcond
      rw [Bool.and_eq_true, decide_eq_true_eq] at hcond
      obtain ⟨hany, hpos⟩ := hcond
      have hfind : ∃ c₀, clusters.find? (fun c => c.1 = -1) = some c₀ := by
        rw [List.any_eq_true] at hany
        obtain ⟨c, hc, hcp⟩ := hany
        have : (clusters.find? (fun c => c.1 = -1)).isSome := by
          rw [List.find?_isSome]
          exact ⟨c, hc, hcp⟩
        exact Option.isSome_iff_exists.mp this
      obtain ⟨c₀, hc₀⟩ := hfind
      rw [hc₀]
      set rest := clusters.filter (fun c => ¬ (c.1 = -1)) with hrestdef
      set cents := rest.map (fun c =>
        (c.1, ((meanQ (c.2.map (fun o => o.lat)),
          meanQ (c.2.map (fun o => o.lon))) : Point))) with hcentsdef
      have hrestnd : (rest.map (fun c => c.1)).Nodup := by
        rw [hrestdef]
        exact List.Nodup.sublist (List.Sublist.map _ (List.filter_sublist _)) hnd
      have hrestne : ∀ c ∈ rest, c.2 ≠ [] :=
        fun c hc => hnenil c (List.mem_of_mem_filter (hrestdef ▸ hc))
      have hrest_nonempty : rest ≠ [] := by
        have hpos' := hpos
        obtain ⟨x, hx⟩ := List.exists_mem_of_length_pos hpos'
        have hxlab : x ∈ labels := List.mem_dedup.mp (List.mem_filter.mp hx).1
        have hxne : x ≠ -1 := by
          have := (List.mem_filter.mp hx).2
          simpa using this
        obtain ⟨i, hi, hgi⟩ := List.mem_iff_getElem.mp hxlab
        have hio : i < orders.length := by omega
        have hzlen : i < (orders.zip labels).length := by
          rw [List.length_zip]
          omega
        have hpair : (orders[i], x) ∈ orders.zip labels := by
          have hz : (orders.zip labels)[i]? = some (orders[i], x) := by
            rw [List.getElem?_zip_eq_some]
            constructor
            · exact List.getElem?_eq_getElem hio
            · rw [List.getElem?_eq_getElem hi, hgi]
          have hzeq : (orders.zip labels)[i] = (orders[i], x) := by
            rw [List.getElem?_eq_getElem hzlen] at hz
            exact Option.some.inj hz
          exact List.mem_iff_getElem.mpr ⟨i, hzlen, hzeq⟩
        have hkey : x ∈ clusters.map (fun c => c.1) :=
          mem_keys_groupByLabel _ _ _ hpair
        obtain ⟨c, hc, hcx⟩ := List.mem_map.mp hkey
        have hcf : c ∈ rest := by
          rw [hrestdef]
          refine List.mem_filter.mpr ⟨hc, ?_⟩
          simp only [decide_eq_true_eq]
          rw [hcx]
          exact hxne
        exact List.ne_nil_of_mem hcf
      have hB : ∀ o' : OrderRow,
          ((pyArgmin (fun c => ext.hq (o'.lat, o'.lon) c.2) cents).map
            (fun p => p.2.1)).getD 0 ∈ rest.map (fun c => c.1) := by
        intro o'
        have hcne : cents ≠ [] := by
          rw [hcentsdef]
          intro hcon
          exact hrest_nonempty (List.map_eq_nil.mp hcon)
        obtain ⟨x, xs, hxx⟩ := List.exists_cons_of_ne_nil hcne
        have hsome : pyArgmin (fun c => ext.hq (o'.lat, o'.lon) c.2) (x :: xs)
            = some (pyArgmin.pyArgminGo (fun c => ext.hq (o'.lat, o'.lon) c.2) 0 x 1 xs) := rfl
        rw [hxx, hsome]
        simp only [Option.map_some', Option.getD_some]
        have hxmem := pyArgmin_mem (fun c => ext.hq (o'.lat, o'.lon) c.2) (x :: xs) _ hsome
        rw [← hxx, hcentsdef] at hxmem
        obtain ⟨c, hc, hcx⟩ := List.mem_map.mp hxmem
        rw [← hcx]
        exact List.mem_map_of_mem _ hc
      simp only [Option.map_some', Option.getD_some]
      obtain ⟨k1, k2, k3⟩ := mergeFold_props
        (fun o' => ((pyArgmin (fun c => ext.hq (o'.lat, o'.lon) c.2) cents).map
          (fun p => p.2.1)).getD 0)
        c₀.2 rest hrestnd hB hrestne
      refine ⟨?_, k3, ?_, ?_⟩
      · refine k2.trans ?_
        rw [hrestdef]
        exact (find_filter_join_perm clusters hnd c₀ hc₀).symm.trans hperm0
      · intro _ c hc
        have hkey : c.1 ∈ rest.map (fun c => c.1) := by
          rw [← k1]
          exact List.mem_map_of_mem _ hc
        rw [hrestdef] at hkey
        obtain ⟨c', hc', hcc⟩ := List.mem_map.mp hkey
        have hne' : ¬ (c'.1 = -1) := by
          have := (List.mem_filter.mp hc').2
          simpa using this
        rw [← hcc]
        exact hne'
      · intro _ _ o ho _
        have hcne : cents ≠ [] := by
          rw [hcentsdef]
          intro hcon
          exact hrest_nonempty (List.map_eq_nil.mp hcon)
        obtain ⟨i, b, hpa, hget, hmin, _⟩ := argminIdx_first_min
          (fun c => ext.hq (o.lat, o.lon) c.2) cents hcne
        have hpy : pyArgmin (fun c => ext.hq (o.lat, o.lon) c.2) cents = some (i, b) := by
          rw [pyArgmin_eq_argminIdx, hpa]
        refine ⟨i, b.1, b.2, ?_, ?_, ?_⟩
        · rw [hpy]
        · exact hmin
        · have hBo : ((pyArgmin (fun c => ext.hq (o.lat, o.lon) c.2) cents).map
              (fun p => p.2.1)).getD 0 = b.1 := by
            rw [hpy]
            rfl
          obtain ⟨c, hc, hck, hco⟩ := mergeFold_mem
            (fun o' => ((pyArgmin (fun c => ext.hq (o'.lat, o'.lon) c.2) cents).map
              (fun p => p.2.1)).getD 0) c₀.2 rest hB o ho
          exact ⟨c, hc, hck.trans hBo, hco⟩
    · rename_i hcond
      refine ⟨hperm0, hnenil, ?_, ?_⟩
      · intro hex c hc
        have hpos := hposlab hex
        rw [Bool.and_eq_true, not_and_or] at hcond
        rcases hcond with hcond | hcond
        · rw [Bool.not_eq_true] at hcond
          have hall := List.any_eq_false.mp hcond
          intro hcon
          exact hall c hc (decide_eq_true hcon)
        · exact absurd (decide_eq_true hpos) hcond
      · intro _ _ o ho hex
        rw [Bool.and_eq_true, not_and_or] at hcond
        rcases hcond with hcond | hcond
        · rw [Bool.not_eq_true] at hcond
          have hall := List.any_eq_false.mp hcond
          have hfind : clusters.find? (fun c => c.1 = -1) = none := by
            rw [List.find?_eq_none]
            intro c hc
            exact hall c hc
          rw [hfind] at ho
          simp at ho
        · exact absurd (decide_eq_true (hposlab hex)) hcond

/-- Witness for the amended C3 at a concrete input: one order, min
cluster size 1, a labelling oracle that labels every point 0. -/
theorem c3_amended_witness :
    (([⟨1, 0, 0, none, none, none, none, none⟩] : List OrderRow) ≠ [])
    ∧ ((Ext.dbscanLabels ⟨fun _ _ => 0, fun _ _ => 0, false, fun _ => Except.error "na", true,
          fun _ _ coords => coords.map (fun _ => 0), fun _ => Except.error "osrm down",
          fun _ => Except.error "ml down"⟩ 2 1
        (([⟨1, 0, 0, none, none, none, none, none⟩] : List OrderRow).map
          (fun o => (o.lat, o.lon)))).length
      = ([⟨1, 0, 0, none, none, none, none, none⟩] : List OrderRow).length)
    ∧ ((((cluster_orders ⟨fun _ _ => 0, fun _ _ => 0, false, fun _ => Except.error "na", true,
            fun _ _ coords => coords.map (fun _ => 0), fun _ => Except.error "osrm down",
            fun _ => Except.error "ml down"⟩
          [⟨1, 0, 0, none, none, none, none, none⟩] 2 1).map (fun c => c.2)).join).Perm
        [⟨1, 0, 0, none, none, none, none, none⟩]
      ∧ (∀ c ∈ cluster_orders ⟨fun _ _ => 0, fun _ _ => 0, false, fun _ => Except.error "na",
            true, fun _ _ coords => coords.map (fun _ => 0), fun _ => Except.error "osrm down",
            fun _ => Except.error "ml down"⟩
          [⟨1, 0, 0, none, none, none, none, none⟩] 2 1, c.2 ≠ [])
      ∧ ((∃ l ∈ Ext.dbscanLabels ⟨fun _ _ => 0, fun _ _ => 0, false, fun _ => Except.error "na",
            true, fun _ _ coords => coords.map (fun _ => 0), fun _ => Except.error "osrm down",
            fun _ => Except.error "ml down"⟩ 2 1
          (([⟨1, 0, 0, none, none, none, none, none⟩] : List OrderRow).map
            (fun o => (o.lat, o.lon))), l ≠ -1) →
          ∀ c ∈ cluster_orders ⟨fun _ _ => 0, fun _ _ => 0, false, fun _ => Except.error "na",
              true, fun _ _ coords => coords.map (fun _ => 0),
              fun _ => Except.error "osrm down", fun _ => Except.error "ml down"⟩
            [⟨1, 0, 0, none, none, none, none, none⟩] 2 1, c.1 ≠ -1)) :=
  by
  have T := c3_amended ⟨fun _ _ => 0, fun _ _ => 0, false, fun _ => Except.error "na", true,
    fun _ _ coords => coords.map (fun _ => 0), fun _ => Except.error "osrm down",
    fun _ => Except.error "ml down"⟩
    [⟨1, 0, 0, none, none, none, none, none⟩] 2 1 (by decide) (by decide)
  exact ⟨by decide, by decide, T.1, T.2.1, T.2.2.1⟩

/-! Reroute lemmas. -/

theorem filter_map_of_preserved {α : Type} (p : α → Bool) (f : α → α)
    (hf1 : ∀ a, p a = true → f a = a) (hf2 : ∀ a, p (f a) = p a) :
    ∀ l : List α, (l.map f).filter p = l.filter p := by
  intro l
  induction l with
  | nil => rfl
  | cons a l ih =>
      simp only [List.map_cons]
      rcases hpa : p a with hpa' | hpa'
      · rw [List.filter_cons_of_neg (by simp [hf2, hpa]), List.filter_cons_of_neg (by simp [hpa])]
        exact ih
      · rw [List.filter_cons_of_pos (by simp [hf2, hpa]), List.filter_cons_of_pos (by simp [hpa]),
          hf1 a hpa]
        rw [ih]

theorem insertLoop_filter_other (tenant wh : String) (coords : Point) (mth : String)
    (payload : List DriverRow) :
    ∀ (rds : List ROut) (db : Db) (i : Nat),
      ((insertLoop tenant wh coords mth payload db i rds).1.routes.filter
        (fun r => !(r.warehouse == some wh)))
      = db.routes.filter (fun r => !(r.warehouse == some wh)) := by
  intro rds
  induction rds with
  | nil => intro db i; rfl
  | cons rd rds ih =>
      intro db i
      simp only [insertLoop]
      split
      · exact ih db (i + 1)
      · rw [ih]
        simp only [List.filter_append]
        rw [List.filter_cons_of_neg (by simp), List.filter_nil, List.append_nil]

theorem insertLoop_active_count (tenant wh : String) (coords : Point) (mth : String)
    (payload : List DriverRow) :
    ∀ (rds : List ROut) (db : Db) (i : Nat),
      ((insertLoop tenant wh coords mth payload db i rds).1.routes.filter
        (fun r => r.warehouse == some wh && r.status == "active")).length
      = (db.routes.filter (fun r => r.warehouse == some wh && r.status == "active")).length
        + (insertLoop tenant wh coords mth payload db i rds).2 := by
  intro rds
  induction rds with
  | nil => intro db i; rfl
  | cons rd rds ih =>
      intro db i
      simp only [insertLoop]
      split
      · exact ih db (i + 1)
      · simp only []
        rw [ih]
        simp only [List.filter_append]
        rw [List.filter_cons_of_pos (by simp), List.filter_nil]
        simp only [List.length_append, List.length_singleton]
        omega

/-- C7: reoptimizing one warehouse leaves every route of a different
warehouse untouched: the sequence of route records whose warehouse is
not the one being rerouted — statuses and contents included — is
exactly the same before and after `_reroute_warehouse`. -/
theorem c7_other_warehouse_routes_unchanged (ext : Ext) (st : Settings) (db : Db)
    (tenant wh : String) (coords : Point) (db' : Db) (rst : RStatus)
    (h : reroute_warehouse ext st db tenant wh coords = Except.ok (db', rst)) :
    db'.routes.filter (fun r => !(r.warehouse == some wh))
      = db.routes.filter (fun r => !(r.warehouse == some wh)) := by
  simp only [reroute_warehouse] at h
  split at h
  · injection h with h'
    rw [(Prod.mk.injEq _ _ _ _).mp h' |>.1]
  · split at h
    · injection h with h'
      rw [(Prod.mk.injEq _ _ _ _).mp h' |>.1]
    · split at h
      · exact absurd h (by simp)
      · split at h
        · injection h with h'
          rw [(Prod.mk.injEq _ _ _ _).mp h' |>.1]
        · injection h with h'
          have hdb : db' = (insertLoop tenant wh coords _ _ _ 0 _).1 :=
            ((Prod.mk.injEq _ _ _ _).mp h' |>.1).symm
          rw [hdb, insertLoop_filter_other]
          refine filter_map_of_preserved _ _ ?_ ?_ db.routes
          · intro r hp
            rw [if_neg]
            intro hcon
            rw [Bool.and_eq_true, Bool.and_eq_true] at hcon
            have := hcon.1.2
            simp only [Bool.not_eq_true'] at hp
            rw [hp] at this
            exact Bool.false_ne_true this
          · intro r
            split <;> rfl

/-- Witness for C7: a concrete reroute pass for warehouse `w1` leaves
the routes of warehouse `w2` untouched. -/
theorem c7_other_warehouse_routes_unchanged_witness :
    reroute_warehouse
      ⟨fun _ _ => 0, fun _ _ => 0, true, fun _ => Except.ok (some ⟨[[0, 1, 0]], []⟩), true,
        fun _ _ _ => [], fun _ => Except.error "osrm down", fun _ => Except.error "ml down"⟩
      ⟨100, true, 30, 10⟩
      ⟨[⟨7, "t", some "w2", some 102, "active", 0, 0, [9], some "ortools", none⟩],
        [⟨5, "t", some "w1", "pending", 0, 0, some 3, none, none⟩],
        [⟨101, "t", some "w1", "idle", some 0, some 0, some 5⟩], 8⟩
      "t" "w1" (0, 0)
      = Except.ok
          (⟨[⟨7, "t", some "w2", some 102, "active", 0, 0, [9], some "ortools", none⟩,
              ⟨8, "t", some "w1", some 101, "active", 0, 5, [5], some "ortools", some (0, 0)⟩],
            [⟨5, "t", some "w1", "assigned", 0, 0, some 3, none, some 8⟩],
            [⟨101, "t", some "w1", "idle", some 0, some 0, some 5⟩], 9⟩,
            ⟨"ok", none, some "w1", some 1⟩)
    ∧ (⟨[⟨7, "t", some "w2", some 102, "active", 0, 0, [9], some "ortools", none⟩,
          ⟨8, "t", some "w1", some 101, "active", 0, 5, [5], some "ortools", some (0, 0)⟩],
        [⟨5, "t", some "w1", "assigned", 0, 0, some 3, none, some 8⟩],
        [⟨101, "t", some "w1", "idle", some 0, some 0, some 5⟩], 9⟩ : Db).routes.filter
          (fun r => !(r.warehouse == some "w1"))
      = (⟨[⟨7, "t", some "w2", some 102, "active", 0, 0, [9], some "ortools", none⟩],
          [⟨5, "t", some "w1", "pending", 0, 0, some 3, none, none⟩],
          [⟨101, "t", some "w1", "idle", some 0, some 0, some 5⟩], 8⟩ : Db).routes.filter
          (fun r => !(r.warehouse == some "w1")) := by
  constructor
  · with_unfolding_all decide
  · exact c7_other_warehouse_routes_unchanged
      ⟨fun _ _ => 0, fun _ _ => 0, true, fun _ => Except.ok (some ⟨[[0, 1, 0]], []⟩), true,
        fun _ _ _ => [], fun _ => Except.error "osrm down", fun _ => Except.error "ml down"⟩
      ⟨100, true, 30, 10⟩
      ⟨[⟨7, "t", some "w2", some 102, "active", 0, 0, [9], some "ortools", none⟩],
        [⟨5, "t", some "w1", "pending", 0, 0, some 3, none, none⟩],
        [⟨101, "t", some "w1", "idle", some 0, some 0, some 5⟩], 8⟩
      "t" "w1" (0, 0)
      ⟨[⟨7, "t", some "w2", some 102, "active", 0, 0, [9], some "ortools", none⟩,
          ⟨8, "t", some "w1", some 101, "active", 0, 5, [5], some "ortools", some (0, 0)⟩],
        [⟨5, "t", some "w1", "assigned", 0, 0, some 3, none, some 8⟩],
        [⟨101, "t", some "w1", "idle", some 0, some 0, some 5⟩], 9⟩
      ⟨"ok", none, some "w1", some 1⟩ (by with_unfolding_all decide)

/-- Counterexample for C6: a reroute pass for a depot that still has a
pending stop can leave the depot's active route set empty. When the
solver drops every stop (vehicle stays at the depot), the optimizer
result still contains one (empty) route per vehicle, so the code
passes the `if not result.get("routes")` guard, supersedes the old
active route, and then inserts nothing because every returned route is
empty: commit with supersede but zero inserts. -/
theorem c6_counterexample :
    (reroute_warehouse
      ⟨fun _ _ => 0, fun _ _ => 0, true, fun _ => Except.ok (some ⟨[[0, 0]], [1]⟩), true,
        fun _ _ _ => [], fun _ => Except.error "osrm down", fun _ => Except.error "ml down"⟩
      ⟨100, true, 30, 10⟩
      ⟨[⟨7, "t", some "w1", some 101, "active", 0, 0, [5], some "ortools", none⟩],
        [⟨5, "t", some "w1", "pending", 0, 0, some 3, none, none⟩],
        [⟨101, "t", some "w1", "idle", some 0, some 0, some 5⟩], 8⟩
      "t" "w1" (0, 0)).map (fun p =>
        (p.2.status, p.2.nRoutes, (activeRoutes p.1 "w1").length,
          (pendingOrders p.1 "w1").length, p.1.routes.map (fun r => r.status)))
    = Except.ok ("ok", some 0, 0, 1, ["superseded"]) := by
  with_unfolding_all decide

/-- C6, amended: a reroute commit that inserts at least one new route
(`nRoutes` positive — which holds exactly when some returned route has
a non-empty stop sequence) leaves the depot's active route set
non-empty. When the optimizer returns only empty routes, the code
instead supersedes the old routes and inserts none (see the
counterexample). -/
theorem c6_commit_with_insert_leaves_active (ext : Ext) (st : Settings) (db : Db)
    (tenant wh : String) (coords : Point) (db' : Db) (rst : RStatus) (k : Nat)
    (h : reroute_warehouse ext st db tenant wh coords = Except.ok (db', rst))
    (hk : rst.nRoutes = some k) (hpos : 0 < k) :
    activeRoutes db' wh ≠ [] := by
  simp only [reroute_warehouse] at h
  split at h
  · injection h with h'
    rw [(Prod.mk.injEq _ _ _ _).mp h' |>.2.symm] at hk
    simp at hk
  · split at h
    · injection h with h'
      rw [(Prod.mk.injEq _ _ _ _).mp h' |>.2.symm] at hk
      simp at hk
    · split at h
      · exact absurd h (by simp)
      · split at h
        · injection h with h'
          rw [(Prod.mk.injEq _ _ _ _).mp h' |>.2.symm] at hk
          simp at hk
        · injection h with h'
          obtain ⟨hdb, hrst⟩ := (Prod.mk.injEq _ _ _ _).mp h'
          rw [← hrst] at hk
          have hk2 := Option.some.inj hk
          rw [← hdb]
          intro hcon
          have hlen := congrArg List.length hcon
          rw [show activeRoutes (insertLoop tenant wh coords _ _ _ 0 _).1 wh
              = (insertLoop tenant wh coords _ _ _ 0 _).1.routes.filter
                (fun r => r.warehouse == some wh && r.status == "active") from rfl,
            insertLoop_active_count] at hlen
          simp only [List.length_nil] at hlen
          omega

/-- Witness for the amended C6: a concrete pass whose solution serves
the stop inserts one active route; the depot's active set is
non-empty afterwards. -/
theorem c6_commit_with_insert_leaves_active_witness :
    reroute_warehouse
      ⟨fun _ _ => 0, fun _ _ => 0, true, fun _ => Except.ok (some ⟨[[0, 1, 0]], []⟩), true,
        fun _ _ _ => [], fun _ => Except.error "osrm down", fun _ => Except.error "ml down"⟩
      ⟨100, true, 30, 10⟩
      ⟨[⟨7, "t", some "w1", some 101, "active", 0, 0, [5], some "ortools", none⟩],
        [⟨5, "t", some "w1", "pending", 0, 0, some 3, none, none⟩],
        [⟨101, "t", some "w1", "idle", some 0, some 0, some 5⟩], 8⟩
      "t" "w1" (0, 0)
      = Except.ok
          (⟨[⟨7, "t", some "w1", some 101, "superseded", 0, 0, [5], some "ortools", none⟩,
              ⟨8, "t", some "w1", some 101, "active", 0, 5, [5], some "ortools", some (0, 0)⟩],
            [⟨5, "t", some "w1", "assigned", 0, 0, some 3, none, some 8⟩],
            [⟨101, "t", some "w1", "idle", some 0, some 0, some 5⟩], 9⟩,
            ⟨"ok", none, some "w1", some 1⟩)
    ∧ (⟨"ok", none, some "w1", some 1⟩ : RStatus).nRoutes = some 1
    ∧ 0 < 1
    ∧ activeRoutes
        ⟨[⟨7, "t", some "w1", some 101, "superseded", 0, 0, [5], some "ortools", none⟩,
            ⟨8, "t", some "w1", some 101, "active", 0, 5, [5], some "ortools", some (0, 0)⟩],
          [⟨5, "t", some "w1", "assigned", 0, 0, some 3, none, some 8⟩],
          [⟨101, "t", some "w1", "idle", some 0, some 0, some 5⟩], 9⟩ "w1" ≠ [] := by
  refine ⟨by with_unfolding_all decide, rfl, by decide, ?_⟩
  exact c6_commit_with_insert_leaves_active
    ⟨fun _ _ => 0, fun _ _ => 0, true, fun _ => Except.ok (some ⟨[[0, 1, 0]], []⟩), true,
      fun _ _ _ => [], fun _ => Except.error "osrm down", fun _ => Except.error "ml down"⟩
    ⟨100, true, 30, 10⟩
    ⟨[⟨7, "t", some "w1", some 101, "active", 0, 0, [5], some "ortools", none⟩],
      [⟨5, "t", some "w1", "pending", 0, 0, some 3, none, none⟩],
      [⟨101, "t", some "w1", "idle", some 0, some 0, some 5⟩], 8⟩
    "t" "w1" (0, 0)
    ⟨[⟨7, "t", some "w1", some 101, "superseded", 0, 0, [5], some "ortools", none⟩,
        ⟨8, "t", some "w1", some 101, "active", 0, 5, [5], some "ortools", some (0, 0)⟩],
      [⟨5, "t", some "w1", "assigned", 0, 0, some 3, none, some 8⟩],
      [⟨101, "t", some "w1", "idle", some 0, some 0, some 5⟩], 9⟩
    ⟨"ok", none, some "w1", some 1⟩ 1 (by with_unfolding_all decide) rfl (by decide)

/-- Counterexample for C8: `plan_routes` does not reject a request
with an empty vehicle pool. With `drivers = 0`, no depot and no driver
payload, the OR-Tools branch bumps the vehicle count to 1
(`num_vehicles = max(num_vehicles, 1)`) and solves with that phantom
vehicle: the call returns a successful `ortools` result carrying a
route, not an error, and the solver was invoked. -/
theorem c8_counterexample :
    plan_routes
      ⟨fun _ _ => 3, fun _ _ => 0, true, fun _ => Except.ok (some ⟨[[0, 1, 0]], []⟩),
        true, fun _ _ _ => [], fun _ => Except.error "osrm down",
        fun _ => Except.error "ml down"⟩
      [⟨101, 0, 0, some 1, none, none, none, none⟩] 0 "ortools" false false 10 30 5
      none none none none
      = Except.ok ⟨[⟨0, [101], 6, some 17⟩], "ortools", 1, some []⟩ := by
  with_unfolding_all decide

/-- C8, amended: `plan_routes` returns an empty result (not an error)
for an empty stop list, but performs no vehicle-pool validation: with
zero vehicles and a non-empty stop list the greedy path raises from
inside the assigner (`min()` over an empty driver pool) after the
solve has started, and the OR-Tools path without depot or driver data
silently proceeds with one substitute vehicle instead of erroring. -/
theorem c8_amended :
    (∀ (ext : Ext) (drivers : Nat) (method : String) (uml pp : Bool) (tl : ℤ) (sp : ℚ)
        (stm : ℤ) (dd : Option (List DriverRow)) (dm tm : Option Mat) (dep : Option Point),
      plan_routes ext [] drivers method uml pp tl sp stm dd dm tm dep
        = Except.ok ⟨[], method, 0, none⟩)
    ∧ (∀ (ext : Ext) (orders : List OrderRow) (tl : ℤ) (sp : ℚ) (stm : ℤ)
        (dd : Option (List DriverRow)) (dm tm : Option Mat) (dep : Option Point),
      orders ≠ [] →
      plan_routes ext orders 0 "greedy" false false tl sp stm dd dm tm dep
        = Except.error "min() arg is an empty sequence") := by
  constructor
  · intro ext drivers method uml pp tl sp stm dd dm tm dep
    rfl
  · intro ext orders tl sp stm dd dm tm dep h
    have hne : prepOrders ext.hav dep orders ≠ [] := by
      intro hcon
      have hl := congrArg List.length hcon
      rw [prepOrders_length] at hl
      exact h (List.length_eq_zero.mp (by simpa using hl))
    simp only [plan_routes, if_neg h]
    rw [if_true]
    rw [show computePreds ext false false (prepOrders ext.hav dep orders) = none from rfl]
    rw [greedy_vrp_zero _ _ hne]
    rfl

/-- Witness for the hypothesis-bearing part of the amended C8: with one
order and zero drivers the greedy path raises the empty-`min` error. -/
theorem c8_amended_witness :
    (([⟨1, 0, 0, some 1, none, none, none, none⟩] : List OrderRow) ≠ [])
    ∧ plan_routes
        ⟨fun _ _ => 0, fun _ _ => 0, false, fun _ => Except.error "na", true,
          fun _ _ _ => [], fun _ => Except.error "osrm down", fun _ => Except.error "ml down"⟩
        [⟨1, 0, 0, some 1, none, none, none, none⟩] 0 "greedy" false false 10 30 5
        none none none none
        = Except.error "min() arg is an empty sequence" :=
  ⟨by decide, c8_amended.2
    ⟨fun _ _ => 0, fun _ _ => 0, false, fun _ => Except.error "na", true,
      fun _ _ _ => [], fun _ => Except.error "osrm down", fun _ => Except.error "ml down"⟩
    [⟨1, 0, 0, some 1, none, none, none, none⟩] 10 30 5 none none none none (by decide)⟩

/-- Witness for C10 at a concrete input: one order of weight 5/2; its
registered demand is `max 1 (round 5/2) = 2`. -/
theorem c10_demand_round_clamp_witness :
    (([⟨1, 0, 0, none, some (5/2), none, none, none⟩] : List OrderRow).get? 0
        = some (⟨1, 0, 0, none, some (5/2), none, none, none⟩ : OrderRow))
    ∧ ((buildVrpInput (fun _ _ => 0) [⟨1, 0, 0, none, some (5/2), none, none, none⟩] 3
          none none none none 30 10 5).demands.get?
        ((planDepotInfo [⟨1, 0, 0, none, some (5/2), none, none, none⟩] 3 none none).1.length + 0)
          = some (demandOf (some (5/2)))
      ∧ demandOf (some (5/2)) = max 1 (pyRound (((some (5/2) : Option ℚ)).getD 1))
      ∧ 1 ≤ demandOf (some (5/2))
      ∧ |((pyRound (((some (5/2) : Option ℚ)).getD 1) : ℤ) : ℚ)
            - ((some (5/2) : Option ℚ)).getD 1| ≤ 1/2) :=
  ⟨rfl, c10_demand_round_clamp (fun _ _ => 0)
    [⟨1, 0, 0, none, some (5/2), none, none, none⟩] 3 none none none none 30 10 5 0
    ⟨1, 0, 0, none, some (5/2), none, none, none⟩ rfl⟩

theorem greedyStep_eq_specAssign (vs : List ROut) (h : vs ≠ []) (x : OrderRow × ℚ × ℚ) :
    greedyStep vs (specRowToGRow x) = Except.ok (specAssign vs x) := by
  obtain ⟨v, h1, h2⟩ := pyArgmin_specLeastLoaded vs h
  simp only [greedyStep, specAssign, h1, h2]
  rfl

theorem specAssign_length (vs : List ROut) (x : OrderRow × ℚ × ℚ) :
    (specAssign vs x).length = vs.length := by
  simp only [specAssign]
  split
  · rfl
  · simp

theorem foldlM_greedy_eq_spec :
    ∀ (l : List (OrderRow × ℚ × ℚ)) (vs : List ROut), vs ≠ [] →
      (l.map specRowToGRow).foldlM greedyStep vs = Except.ok (l.foldl specAssign vs) := by
  intro l
  induction l with
  | nil => intro vs _; rfl
  | cons x xs ih =>
      intro vs hvs
      simp only [List.map_cons, List.foldlM_cons, List.foldl_cons]
      rw [greedyStep_eq_specAssign vs hvs x]
      have hne : specAssign vs x ≠ [] := by
        intro hc
        have hl := specAssign_length vs x
        rw [hc] at hl
        exact hvs (List.length_eq_zero.mp hl.symm)
      rw [← ih (specAssign vs x) hne]
      rfl

theorem map_mult_eq_spec (l : List (OrderRow × ℚ)) :
    ((l.map (fun p =>
        ({ row := p.1, pred_delay := p.2, priority := p.2 + p.1.distance_km.getD 0 } : GRow))).map
      (fun g => { g with priority := g.priority * trafficWeight g.row.traffic }))
      = (l.map (fun p => (p.1, p.2, specPriority p.2 p.1))).map specRowToGRow := by
  rw [List.map_map, List.map_map]
  refine List.map_congr_left (fun p _ => ?_)
  simp only [Function.comp_apply, specRowToGRow]
  rcases hp : p.1.traffic with _ | lvl
  · simp only [specPriority, hp, trafficWeight, mul_one]
  · simp only [specPriority, hp, trafficWeight, specTrafficMult]
    congr 1
    split_ifs <;> norm_num

theorem map_nomult_eq_spec (orders : List OrderRow) (ps : List ℚ)
    (h : ∀ o ∈ orders, o.traffic = none) :
    (orders.zip ps).map (fun p =>
        ({ row := p.1, pred_delay := p.2, priority := p.2 + p.1.distance_km.getD 0 } : GRow))
      = ((orders.zip ps).map (fun p => (p.1, p.2, specPriority p.2 p.1))).map
          specRowToGRow := by
  rw [List.map_map]
  refine List.map_congr_left (fun p hp => ?_)
  have h1 : p.1.traffic = none := h p.1 (List.of_mem_zip hp).1
  simp only [Function.comp_apply, specRowToGRow, specPriority, h1]

theorem specInsertDesc_map (x : OrderRow × ℚ × ℚ) (l : List (OrderRow × ℚ × ℚ)) :
    insertRowDesc (specRowToGRow x) (l.map specRowToGRow)
      = (specInsertDesc x l).map specRowToGRow := by
  induction l with
  | nil => rfl
  | cons y ys ih =>
      simp only [List.map_cons, insertRowDesc, specInsertDesc]
      by_cases h : x.2.2 ≤ y.2.2
      · rw [if_pos (show (specRowToGRow x).priority ≤ (specRowToGRow y).priority from h),
          if_pos h, List.map_cons, ih]
      · rw [if_neg (show ¬ (specRowToGRow x).priority ≤ (specRowToGRow y).priority from h),
          if_neg h]
        simp

theorem specSortDesc_map (l : List (OrderRow × ℚ × ℚ)) :
    sortRowsDesc (l.map specRowToGRow) = (specSortDesc l).map specRowToGRow := by
  induction l with
  | nil => rfl
  | cons x xs ih =>
      simp only [sortRowsDesc, specSortDesc, List.map_cons, List.foldr_cons] at ih ⊢
      rw [ih]
      exact specInsertDesc_map x (specSortDesc xs)

/-- C9: the embedded `greedy_vrp` (traffic factor on, as `plan_routes`
invokes it) refines the assigner written from the specification's
words: per-stop priority is predicted delay (0 when no estimate is
supplied) plus distance from the reference point, times the
traffic-level weight (low 0.8, medium 1.0, high 1.3) when a traffic
level is present; stops are processed in descending priority, each
assigned to the vehicle with the lowest accumulated load, ties broken
by the lowest vehicle index. Hypotheses: at least one vehicle (with
none, the source raises from `min()` on any non-empty batch) and a
length-consistent delay estimate (with a mismatch, the source's column
assignment raises). -/
theorem c9_greedy_matches_spec (orders : List OrderRow) (preds : Option (List ℚ))
    (drivers : Nat)
    (hlen : (preds.getD (List.replicate orders.length 0)).length = orders.length)
    (hdr : 0 < drivers) :
    greedy_vrp orders preds drivers true
      = Except.ok (specGreedyAssign orders preds drivers) := by
  have hinit : ((List.range drivers).map (fun i =>
      ({ id := i, route := [], load := 0, duration_min := none } : ROut))) ≠ [] := by
    intro hc
    have hl := congrArg List.length hc
    simp at hl
    omega
  simp only [greedy_vrp, specGreedyAssign, Bool.true_and]
  rw [if_neg (not_not_intro hlen)]
  by_cases hany : orders.any (fun o => o.traffic.isSome) = true
  · rw [if_pos hany, map_mult_eq_spec, specSortDesc_map]
    exact foldlM_greedy_eq_spec _ _ hinit
  · rw [if_neg hany]
    have hnone : ∀ o ∈ orders, o.traffic = none := by
      intro o ho
      rcases ht : o.traffic with _ | t
      · rfl
      · exact absurd (List.any_eq_true.mpr ⟨o, ho, by simp [ht]⟩) hany
    rw [map_nomult_eq_spec orders _ hnone, specSortDesc_map]
    exact foldlM_greedy_eq_spec _ _ hinit

/-- C9 witness at a concrete input: two stops (one with traffic level
`high`, one without), no delay estimate, two vehicles. -/
theorem c9_greedy_matches_spec_witness :
    (0 < 2
      ∧ ((none : Option (List ℚ)).getD
          (List.replicate
            ([⟨1, 0, 0, some 2, none, some "high", none, none⟩,
              ⟨2, 0, 0, some 1, none, none, none, none⟩] : List OrderRow).length 0)).length
        = ([⟨1, 0, 0, some 2, none, some "high", none, none⟩,
            ⟨2, 0, 0, some 1, none, none, none, none⟩] : List OrderRow).length)
    ∧ greedy_vrp
        [⟨1, 0, 0, some 2, none, some "high", none, none⟩,
          ⟨2, 0, 0, some 1, none, none, none, none⟩] none 2 true
      = Except.ok (specGreedyAssign
          [⟨1, 0, 0, some 2, none, some "high", none, none⟩,
            ⟨2, 0, 0, some 1, none, none, none, none⟩] none 2) :=
  ⟨⟨by decide, by decide⟩,
    c9_greedy_matches_spec
      [⟨1, 0, 0, some 2, none, some "high", none, none⟩,
        ⟨2, 0, 0, some 1, none, none, none, none⟩] none 2 (by decide) (by decide)⟩

theorem set_of_get_eq {α : Type} : ∀ (l : List α) (i : Nat) (a : α),
    l.get? i = some a → l.set i a = l := by
  intro l
  induction l with
  | nil => intro i a h; exact Option.noConfusion h
  | cons x xs ih =>
      intro i a h
      rcases i with _ | i
      · obtain rfl := Option.some.inj h
        rfl
      · simp only [List.set]
        rw [ih i a h]

theorem foldlM_greedyStep_ids (l : List GRow) :
    ∀ ds : List ROut, ds ≠ [] →
      ∃ ds', l.foldlM greedyStep ds = Except.ok ds'
        ∧ ds'.map (fun d => d.id) = ds.map (fun d => d.id) := by
  induction l with
  | nil => exact fun ds _ => ⟨ds, rfl, rfl⟩
  | cons g gs ih =>
      intro ds hds
      obtain ⟨i, b, h1, h2, _, _⟩ := argminIdx_first_min (fun d => d.load) ds hds
      have hpa : pyArgmin (fun d => d.load) ds = some (i, b) := by
        rw [pyArgmin_eq_argminIdx, h1]
      have hstep : greedyStep ds g = Except.ok (ds.set i
          { b with
            route := b.route ++ [g.row.order_id]
            load := b.load + (g.row.distance_km.getD 0 + g.pred_delay) }) := by
        simp only [greedyStep, hpa]
      have hids : (ds.set i
          { b with
            route := b.route ++ [g.row.order_id]
            load := b.load + (g.row.distance_km.getD 0 + g.pred_delay) }).map (fun d => d.id)
          = ds.map (fun d => d.id) := by
        rw [List.map_set]
        exact set_of_get_eq _ i _ (by rw [List.get?_map, h2]; rfl)
      have hlen : (ds.set i
          { b with
            route := b.route ++ [g.row.order_id]
            load := b.load + (g.row.distance_km.getD 0 + g.pred_delay) }).length
          = ds.length := by simp
      have hne : (ds.set i
          { b with
            route := b.route ++ [g.row.order_id]
            load := b.load + (g.row.distance_km.getD 0 + g.pred_delay) }) ≠ [] := by
        intro hc
        rw [hc] at hlen
        exact hds (List.length_eq_zero.mp hlen.symm)
      obtain ⟨ds', h3, h4⟩ := ih _ hne
      refine ⟨ds', ?_, h4.trans hids⟩
      simpa [List.foldlM, hstep] using h3

theorem greedy_vrp_ids (orders : List OrderRow) (preds : Option (List ℚ)) (drivers : Nat)
    (tf : Bool) (hd : 0 < drivers)
    (hps : (preds.getD (List.replicate orders.length 0)).length = orders.length) :
    ∃ rs, greedy_vrp orders preds drivers tf = Except.ok rs
      ∧ rs.map (fun d => d.id) = List.range drivers := by
  have hinit : ((List.range drivers).map
      (fun i => ({ id := i, route := [], load := 0, duration_min := none } : ROut))) ≠ [] := by
    intro hcon
    have := congrArg List.length hcon
    simp at this
    omega
  obtain ⟨rs, h1, h2⟩ := foldlM_greedyStep_ids _ _ hinit
  refine ⟨rs, ?_, ?_⟩
  · simp only [greedy_vrp, hps]
    split
    · rename_i hC; exact absurd rfl hC
    · exact h1
  · rw [h2, List.map_map]
    have hcomp : ((fun d : ROut => d.id) ∘ (fun i =>
        ({ id := i, route := [], load := 0, duration_min := none } : ROut)))
        = fun i => i := funext (fun i => rfl)
    rw [hcomp]
    simp

theorem greedy_map_ids (orders : List OrderRow) (preds : Option (List ℚ)) (drivers : Nat)
    (m : String) (n : Nat) (res : PlanResult) (hd : 0 < drivers)
    (h : (greedy_vrp orders preds drivers true).map
        (fun rs => ({ routes := rs, method := m, n_orders := n, unassigned := none }
          : PlanResult)) = Except.ok res) :
    (res.routes.map (fun r => r.id)).Nodup := by
  rcases hg : greedy_vrp orders preds drivers true with e | rs
  · rw [hg] at h
    exact Except.noConfusion h
  · rw [hg] at h
    obtain rfl := (Except.ok.inj h).symm
    have hps : (preds.getD (List.replicate orders.length 0)).length = orders.length := by
      by_contra hc
      have hbad : greedy_vrp orders preds drivers true
          = Except.error "Length of values does not match length of index" := by
        simp only [greedy_vrp]
        rw [if_pos hc]
      rw [hbad] at hg
      exact Except.noConfusion hg
    obtain ⟨rs', h1, h2⟩ := greedy_vrp_ids orders preds drivers true hd hps
    rw [hg] at h1
    obtain rfl := Except.ok.inj h1
    rw [h2]
    exact List.nodup_range _

theorem ortoolsPlan_ids (ext : Ext) (df : List OrderRow) (drivers : Nat)
    (dd : Option (List DriverRow)) (depot : Option Point) (dmOpt tmOpt : Option Mat)
    (sp : ℚ) (tl stm : ℤ) (r : PlanResult)
    (h : ortoolsPlan ext df drivers dd depot dmOpt tmOpt sp tl stm = Except.ok r) :
    (r.routes.map (fun x => x.id)).Nodup := by
  simp only [ortoolsPlan] at h
  split at h
  · exact Except.noConfusion h
  · obtain rfl := Except.ok.inj h
    rw [List.map_map]
    exact List.nodup_enum_map_fst _

/-- C4 counterexample: 51 stops split by the density grouping into two
partitions of 26 and 25 stops; the constrained solver is unavailable so
each partition falls back to the greedy assigner over the SAME pool of
one driver. The concatenated result contains two non-empty routes both
carrying vehicle id 0 — the vehicle is assigned stops in two different
partitions of the same cycle, and the id list `[0, 0]` is not
duplicate-free. -/
theorem c4_counterexample :
    ((calculate_routes
        ⟨fun _ _ => 0, fun _ _ => 0, false, fun _ => Except.error "e", true,
          fun _ _ pts => pts.map (fun p => if p.1 = 0 then 0 else 1),
          fun _ => Except.error "e", fun _ => Except.error "e"⟩
        ⟨100, true, 30, 10⟩
        ((List.range 51).map (fun i =>
          (⟨i, if i < 26 then 0 else 1, 0, some 1, none, none, none, none⟩ : OrderRow)))
        1 "ortools" false none 30 10 false none true).map
      (fun res => (res.method, res.routes.map (fun r => (r.id, r.route.length))))
      = Except.ok ("ortools+clustered", [(0, 26), (0, 25)]))
    ∧ ¬ (([0, 0] : List Nat).Nodup) := by
  with_unfolding_all decide

/-- C4 (amended): within one single (unpartitioned) solve, no vehicle
receives two routes: every successful `plan_routes` result carries
pairwise-distinct vehicle ids (the greedy paths return exactly one
route per vehicle id `0..drivers-1`; the constrained path one route
per enumerated vehicle). The claimed cross-partition uniqueness fails:
`calculate_routes` reuses the same driver pool for every cluster and
concatenates the per-cluster routes unchanged (see the
counterexample). -/
theorem c4_single_solve_route_ids_nodup (ext : Ext) (orders : List OrderRow)
    (drivers : Nat) (method : String) (uml pp : Bool) (tl : ℤ) (sp : ℚ) (stm : ℤ)
    (dd : Option (List DriverRow)) (dm tm : Option Mat) (depot : Option Point)
    (res : PlanResult) (hd : 0 < drivers)
    (hres : plan_routes ext orders drivers method uml pp tl sp stm dd dm tm depot
      = Except.ok res) :
    (res.routes.map (fun r => r.id)).Nodup := by
  simp only [plan_routes] at hres
  split at hres
  · obtain rfl := Except.ok.inj hres
    simp
  · split at hres
    · exact greedy_map_ids _ _ _ _ _ _ hd hres
    · split at hres
      · split at hres
        · exact greedy_map_ids _ _ _ _ _ _ hd hres
        · split at hres
          · rename_i r heq
            obtain rfl := Except.ok.inj hres
            exact ortoolsPlan_ids _ _ _ _ _ _ _ _ _ _ _ heq
          · exact greedy_map_ids _ _ _ _ _ _ hd hres
      · exact Except.noConfusion hres

/-- C4 witness at a concrete input: a one-stop greedy solve returns a
single route for vehicle 0, a duplicate-free id list. -/
theorem c4_single_solve_route_ids_nodup_witness :
    (0 < 1
      ∧ plan_routes
          ⟨fun _ _ => 0, fun _ _ => 0, false, fun _ => Except.error "e", false,
            fun _ _ _ => [], fun _ => Except.error "e", fun _ => Except.error "e"⟩
          [⟨1, 0, 0, some 1, none, none, none, none⟩] 1 "greedy" false false 30 40 5
          none none none none
        = Except.ok ⟨[⟨0, [1], 1, none⟩], "greedy", 1, none⟩)
    ∧ ((([⟨0, [1], 1, none⟩] : List ROut).map (fun r => r.id)).Nodup) :=
  ⟨⟨by decide, by with_unfolding_all decide⟩,
    c4_single_solve_route_ids_nodup
      ⟨fun _ _ => 0, fun _ _ => 0, false, fun _ => Except.error "e", false,
        fun _ _ _ => [], fun _ => Except.error "e", fun _ => Except.error "e"⟩
      [⟨1, 0, 0, some 1, none, none, none, none⟩] 1 "greedy" false false 30 40 5
      none none none none ⟨[⟨0, [1], 1, none⟩], "greedy", 1, none⟩ (by decide)
      (by with_unfolding_all decide)⟩

end IntelliLog
